import Mathlib

/-!
Verification of the perspectivego format-translation layer
(`perspective.go`): the location codec (`StringToLocation`,
`LocationToString`), the line-oriented puzzle text codec
(`ReadPuzzle`, `WritePuzzle`, `WritePuzzleFile`) and the
varint-framed world codec (`ReadWorldFile`, `WriteWorld`).

Strings are modelled as `List Char` and byte buffers as `List Nat`
(each byte reduced mod 256 where it is consumed).  Go's three ways out
of a function are kept apart in `GoErr`: an error value returned to
the caller (`GoErr.returned`), a `log.Fatal` that terminates the
process (`GoErr.fatal`), and a runtime panic such as an out-of-range
index or slice (`GoErr.panic`).
-/

namespace Perspective

/-- Helper for writing concrete test inputs: the character list of a
string literal. -/
def chars (s : String) : List Char := s.toList

/-- Go `strings.Split(s, string(c))`: split on every occurrence of the
one-character separator `c`; the result always has at least one
(possibly empty) piece. -/
def splitOn (c : Char) : List Char → List (List Char)
  | [] => [[]]
  | x :: rest =>
    if x = c then [] :: splitOn c rest
    else
      match splitOn c rest with
      | r :: rs => (x :: r) :: rs
      | [] => [[x]]

/-- Go `strings.Join(parts, string(c))`. -/
def joinSep (c : Char) : List (List Char) → List Char
  | [] => []
  | [x] => x
  | x :: y :: rest => x ++ c :: joinSep c (y :: rest)

/-- The `dropCR` step of `bufio.ScanLines`: strip one trailing
carriage return from a token. -/
def dropTrailCR (s : List Char) : List Char :=
  if s.getLast? = some '\r' then s.dropLast else s

/-- The token stream produced by `bufio.Scanner` with `bufio.ScanLines`:
newline-separated tokens, one trailing carriage return stripped from
each token, no final empty token when the input ends in a newline, and
no token at all on empty input. -/
def scanLines (s : List Char) : List (List Char) :=
  if s = [] then []
  else if s.getLast? = some '\n' then ((splitOn '\n' s).dropLast).map dropTrailCR
  else (splitOn '\n' s).map dropTrailCR

/-- Output of a sequence of `fmt.Fprintln` calls, one line per call. -/
def unlines (ls : List (List Char)) : List Char :=
  match ls with
  | [] => []
  | l :: rest => l ++ '\n' :: unlines rest

/-- A decimal digit character, as produced by `strconv` when formatting
base-10 integers. -/
def digitChar : Nat → Char
  | 0 => '0'
  | 1 => '1'
  | 2 => '2'
  | 3 => '3'
  | 4 => '4'
  | 5 => '5'
  | 6 => '6'
  | 7 => '7'
  | 8 => '8'
  | _ + 9 => '9'

/-- Value of one character as a decimal digit, following the digit test
of `strconv.ParseInt`: only characters between `'0'` and `'9'` count. -/
def digToNat? (c : Char) : Option Nat :=
  if 48 ≤ c.toNat ∧ c.toNat ≤ 57 then some (c.toNat - 48) else none

/-- Accumulation loop of `strconv.ParseUint`: fold base-10 digits left
to right, failing as soon as a non-digit appears. -/
def digitsVal? (s : List Char) : Option Nat :=
  s.foldl (fun acc c => acc.bind fun a => (digToNat? c).map fun d => a * 10 + d) (some 0)

/-- Go `strconv.ParseUint(s, 10, 64)` without the range check: a
non-empty run of decimal digits. -/
def digitsToNat? (s : List Char) : Option Nat :=
  if s = [] then none else digitsVal? s

/-- Decimal digits (most significant first) of a natural number, the
formatting loop of `strconv.FormatInt`; the structural fuel only bounds
the recursion depth and any `fuel ≥ n` gives the same result. -/
def natDigitsGo : Nat → Nat → List Char
  | _, 0 => []
  | n, fuel + 1 => if n = 0 then [] else natDigitsGo (n / 10) fuel ++ [digitChar (n % 10)]

/-- Decimal representation of a natural number (`strconv` formatting of
a non-negative value): `"0"` for zero, no leading zeros otherwise. -/
def natDigits (n : Nat) : List Char :=
  if n = 0 then ['0'] else natDigitsGo n n

/-- Go `strconv.Itoa`: minus sign for negatives, then decimal digits. -/
def itoa (v : Int) : List Char :=
  if v < 0 then '-' :: natDigits (-v).toNat else natDigits v.toNat

/-- Go `strconv.Atoi` (that is, `ParseInt(s, 10, 0)` on a 64-bit
platform): an optional single leading sign, then a non-empty run of
decimal digits, with the int64 range check.  The error value is the
message text. -/
def Atoi (s : List Char) : Except (List Char) Int :=
  match s with
  | [] => .error (chars "invalid syntax")
  | c :: rest =>
    if c = '-' then
      match digitsToNat? rest with
      | none => .error (chars "invalid syntax")
      | some n =>
        if (n : Int) ≤ 2 ^ 63 then .ok (-(n : Int)) else .error (chars "value out of range")
    else if c = '+' then
      match digitsToNat? rest with
      | none => .error (chars "invalid syntax")
      | some n =>
        if (n : Int) ≤ 2 ^ 63 - 1 then .ok (n : Int) else .error (chars "value out of range")
    else
      match digitsToNat? (c :: rest) with
      | none => .error (chars "invalid syntax")
      | some n =>
        if (n : Int) ≤ 2 ^ 63 - 1 then .ok (n : Int) else .error (chars "value out of range")

/-- The three distinct ways control can leave a Go function in this
codebase: an error value returned to the caller, a `log.Fatal` call
that terminates the whole process, and a runtime panic (out-of-range
index or slice). -/
inductive GoErr where
  | returned (msg : List Char)
  | fatal (msg : List Char)
  | panic (msg : List Char)
  deriving DecidableEq, Repr

/-- Go conversion `int32(v)`: two's-complement truncation to 32 bits. -/
def toInt32 (v : Int) : Int := (v + 2 ^ 31) % 2 ^ 32 - 2 ^ 31

/-- Go conversion `uint32(v)`: the value mod 2^32, as a natural. -/
def toUInt32 (v : Int) : Nat := (v % 2 ^ 32).toNat

/-- Go `StringToInt` (perspective.go:234-240): `strconv.Atoi`, with any
parse error passed to `log.Fatal`, which terminates the process. -/
def StringToInt (s : List Char) : Except GoErr Int :=
  match Atoi s with
  | .ok v => .ok v
  | .error msg => .error (.fatal msg)

/-- The protobuf message `Location`: fields `W X Y Z` of Go type
`int32`.  The model uses unbounded integers and applies the 32-bit
truncation exactly where the Go code writes `int32(...)`. -/
structure Location where
  W : Int
  X : Int
  Y : Int
  Z : Int
  deriving DecidableEq, Repr

/-- Whether an integer fits in Go's `int32`. -/
def inInt32 (v : Int) : Bool := decide (-(2 ^ 31) ≤ v ∧ v < 2 ^ 31)

/-- Whether every component of a `Location` fits in `int32` — true by
typing for every value the Go program can hold. -/
def Location.inRange (l : Location) : Bool :=
  inInt32 l.W && inInt32 l.X && inInt32 l.Y && inInt32 l.Z

/-- Go `StringToLocation` (perspective.go:200-232): split on commas,
interpret 4 components as `W,X,Y,Z`, 3 as `X,Y,Z`, 2 as `X,Y`, 1 as
`X` (unset components default to 0); any other count hits `log.Fatal`.
Each component is parsed with `StringToInt` and converted to `int32`. -/
def StringToLocation (s : List Char) : Except GoErr Location :=
  match splitOn ',' s with
  | [p0, p1, p2, p3] => do
    let w ← StringToInt p0
    let x ← StringToInt p1
    let y ← StringToInt p2
    let z ← StringToInt p3
    pure ⟨toInt32 w, toInt32 x, toInt32 y, toInt32 z⟩
  | [p0, p1, p2] => do
    let x ← StringToInt p0
    let y ← StringToInt p1
    let z ← StringToInt p2
    pure ⟨toInt32 0, toInt32 x, toInt32 y, toInt32 z⟩
  | [p0, p1] => do
    let x ← StringToInt p0
    let y ← StringToInt p1
    pure ⟨toInt32 0, toInt32 x, toInt32 y, toInt32 0⟩
  | [p0] => do
    let x ← StringToInt p0
    pure ⟨toInt32 0, toInt32 x, toInt32 0, toInt32 0⟩
  | _ => .error (.fatal (chars "Could not parse location"))

/-- Go `LocationToString` (perspective.go:242-247). -/
def LocationToString (l : Location) : List Char :=
  if l.W = 0 then itoa l.X ++ ',' :: itoa l.Y ++ ',' :: itoa l.Z
  else itoa l.W ++ ',' :: itoa l.X ++ ',' :: itoa l.Y ++ ',' :: itoa l.Z

/-- Protobuf message `Outline` with the fields perspective.go uses. -/
structure Outline where
  Mesh : List Char
  Colour : List Char
  Texture : List Char
  Material : List Char
  Shader : List Char
  deriving DecidableEq, Repr

/-- Protobuf message `Sky`. -/
structure Sky where
  Name : List Char
  Mesh : List Char
  Colour : List Char
  Texture : List Char
  Material : List Char
  Shader : List Char
  deriving DecidableEq, Repr

/-- Protobuf message `Block`. -/
structure Block where
  Name : List Char
  Mesh : List Char
  Colour : List Char
  Location : Perspective.Location
  Texture : List Char
  Material : List Char
  Shader : List Char
  deriving DecidableEq, Repr

/-- Protobuf message `Goal`. -/
structure Goal where
  Name : List Char
  Mesh : List Char
  Colour : List Char
  Location : Perspective.Location
  Texture : List Char
  Material : List Char
  Shader : List Char
  deriving DecidableEq, Repr

/-- Protobuf message `Portal`; `Link` is the teleport destination. -/
structure Portal where
  Name : List Char
  Mesh : List Char
  Colour : List Char
  Location : Location
  Link : Perspective.Location
  Texture : List Char
  Material : List Char
  Shader : List Char
  deriving DecidableEq, Repr

/-- Protobuf message `Sphere`. -/
structure Sphere where
  Name : List Char
  Mesh : List Char
  Colour : List Char
  Location : Perspective.Location
  Texture : List Char
  Material : List Char
  Shader : List Char
  deriving DecidableEq, Repr

/-- Protobuf message `Scenery`. -/
structure Scenery where
  Name : List Char
  Mesh : List Char
  Colour : List Char
  Location : Perspective.Location
  Texture : List Char
  Material : List Char
  Shader : List Char
  deriving DecidableEq, Repr

/-- Protobuf message `Dialog`; the Go field `Type` is spelled `Type'`
here because `Type` is reserved in Lean. -/
structure Dialog where
  Name : List Char
  Type' : List Char
  BackgroundColour : List Char
  ForegroundColour : List Char
  Author : List Char
  Content : List Char
  Location : Perspective.Location
  Element : List (List Char)
  deriving DecidableEq, Repr

/-- Protobuf message `Puzzle`; `Target` is a Go `uint32`, modelled as a
natural number (the `< 2^32` bound is part of validity below). -/
structure Puzzle where
  Outline : Option Perspective.Outline
  Sky : List Perspective.Sky
  Block : List Perspective.Block
  Goal : List Perspective.Goal
  Portal : List Perspective.Portal
  Sphere : List Perspective.Sphere
  Description : List Char
  Target : Nat
  Scenery : List Perspective.Scenery
  Dialog : List Perspective.Dialog
  deriving DecidableEq, Repr

/-- A free-text character that survives the round trip: not the field
separator, not the list separator, not a line terminator. -/
def cleanChar (c : Char) : Bool :=
  !(c == ':' || c == ',' || c == '\n' || c == '\r')

/-- A free-text field all of whose characters are `cleanChar`. -/
def clean (s : List Char) : Bool := s.all cleanChar

/-- Validity of an `Outline`'s fields for the round trip. -/
def Outline.valid (o : Outline) : Bool :=
  clean o.Mesh && clean o.Colour && clean o.Texture && clean o.Material && clean o.Shader

/-- Validity of a `Sky`'s fields for the round trip. -/
def Sky.valid (s : Sky) : Bool :=
  clean s.Name && clean s.Mesh && clean s.Colour && clean s.Texture &&
    clean s.Material && clean s.Shader

/-- Validity of a `Block`'s fields for the round trip. -/
def Block.valid (b : Block) : Bool :=
  clean b.Name && clean b.Mesh && clean b.Colour && b.Location.inRange &&
    clean b.Texture && clean b.Material && clean b.Shader

/-- Validity of a `Goal`'s fields for the round trip. -/
def Goal.valid (g : Goal) : Bool :=
  clean g.Name && clean g.Mesh && clean g.Colour && g.Location.inRange &&
    clean g.Texture && clean g.Material && clean g.Shader

/-- Validity of a `Portal`'s fields for the round trip. -/
def Portal.valid (q : Portal) : Bool :=
  clean q.Name && clean q.Mesh && clean q.Colour && q.Location.inRange &&
    q.Link.inRange && clean q.Texture && clean q.Material && clean q.Shader

/-- Validity of a `Sphere`'s fields for the round trip. -/
def Sphere.valid (s : Sphere) : Bool :=
  clean s.Name && clean s.Mesh && clean s.Colour && s.Location.inRange &&
    clean s.Texture && clean s.Material && clean s.Shader

/-- Validity of a `Scenery`'s fields for the round trip. -/
def Scenery.valid (s : Scenery) : Bool :=
  clean s.Name && clean s.Mesh && clean s.Colour && s.Location.inRange &&
    clean s.Texture && clean s.Material && clean s.Shader

/-- Validity of a `Dialog`'s fields for the round trip: on top of clean
fields, the element list must be non-empty, because joining an empty
list gives `""`, which splits back into the one-element list `[""]`. -/
def Dialog.valid (d : Dialog) : Bool :=
  clean d.Name && clean d.Type' && clean d.BackgroundColour &&
    clean d.ForegroundColour && clean d.Author && clean d.Content &&
    d.Location.inRange && !d.Element.isEmpty && d.Element.all clean

/-- Validity of a whole `Puzzle` for the round trip. -/
def Puzzle.valid (p : Puzzle) : Bool :=
  (match p.Outline with
   | none => true
   | some o => o.valid) &&
  p.Sky.all Sky.valid && p.Block.all Block.valid && p.Goal.all Goal.valid &&
  p.Portal.all Portal.valid && p.Sphere.all Sphere.valid &&
  clean p.Description && decide (p.Target < 2 ^ 32) &&
  p.Scenery.all Scenery.valid && p.Dialog.all Dialog.valid

/-- The local accumulator variables of `ReadPuzzle`
(perspective.go:82-91), with their Go zero values as the initial
state. -/
structure PState where
  outline : Option Outline
  sky : List Sky
  block : List Block
  goal : List Goal
  portal : List Portal
  sphere : List Sphere
  description : List Char
  target : Int
  scenery : List Scenery
  dialog : List Dialog
  deriving DecidableEq, Repr

/-- Zero values of the accumulator variables. -/
def initState : PState := ⟨none, [], [], [], [], [], [], 0, [], []⟩

/-- Go slice indexing `parts[i]`: indexing past the end is a runtime
panic, not an error value. -/
def getPart : List (List Char) → Nat → Except GoErr (List Char)
  | [], _ => .error (.panic (chars "index out of range"))
  | x :: _, 0 => .ok x
  | _ :: xs, n + 1 => getPart xs n

/-- One iteration of the scan loop of `ReadPuzzle`
(perspective.go:92-185): skip blank lines and `#` comments, split the
line on colons, dispatch on `parts[0]`; an unrecognized tag is only
logged.  Struct-literal fields are evaluated in Go source order, so
the first out-of-range index or failed parse decides the outcome. -/
def readLine (st : PState) (line : List Char) : Except GoErr PState :=
  if line = [] ∨ ['#'].isPrefixOf line then .ok st
  else
    let parts := splitOn ':' line
    let p0 := parts.headD []
    if p0 = chars "description" then do
      let d ← getPart parts 1
      .ok { st with description := d }
    else if p0 = chars "target" then do
      let t ← StringToInt (← getPart parts 1)
      .ok { st with target := t }
    else if p0 = chars "outline" then do
      let mesh ← getPart parts 1
      let colour ← getPart parts 2
      let texture ← getPart parts 3
      let material ← getPart parts 4
      let shader ← getPart parts 5
      .ok { st with outline := some ⟨mesh, colour, texture, material, shader⟩ }
    else if p0 = chars "sky" then do
      let name ← getPart parts 1
      let mesh ← getPart parts 2
      let colour ← getPart parts 3
      let texture ← getPart parts 4
      let material ← getPart parts 5
      let shader ← getPart parts 6
      .ok { st with sky := st.sky ++ [⟨name, mesh, colour, texture, material, shader⟩] }
    else if p0 = chars "block" then do
      let name ← getPart parts 1
      let mesh ← getPart parts 2
      let colour ← getPart parts 3
      let location ← StringToLocation (← getPart parts 4)
      let texture ← getPart parts 5
      let material ← getPart parts 6
      let shader ← getPart parts 7
      .ok { st with block :=
        st.block ++ [⟨name, mesh, colour, location, texture, material, shader⟩] }
    else if p0 = chars "goal" then do
      let name ← getPart parts 1
      let mesh ← getPart parts 2
      let colour ← getPart parts 3
      let location ← StringToLocation (← getPart parts 4)
      let texture ← getPart parts 5
      let material ← getPart parts 6
      let shader ← getPart parts 7
      .ok { st with goal :=
        st.goal ++ [⟨name, mesh, colour, location, texture, material, shader⟩] }
    else if p0 = chars "portal" then do
      let name ← getPart parts 1
      let mesh ← getPart parts 2
      let colour ← getPart parts 3
      let location ← StringToLocation (← getPart parts 4)
      let link ← StringToLocation (← getPart parts 5)
      let texture ← getPart parts 6
      let material ← getPart parts 7
      let shader ← getPart parts 8
      .ok { st with portal :=
        st.portal ++ [⟨name, mesh, colour, location, link, texture, material, shader⟩] }
    else if p0 = chars "sphere" then do
      let name ← getPart parts 1
      let mesh ← getPart parts 2
      let colour ← getPart parts 3
      let location ← StringToLocation (← getPart parts 4)
      let texture ← getPart parts 5
      let material ← getPart parts 6
      let shader ← getPart parts 7
      .ok { st with sphere :=
        st.sphere ++ [⟨name, mesh, colour, location, texture, material, shader⟩] }
    else if p0 = chars "scenery" then do
      let name ← getPart parts 1
      let mesh ← getPart parts 2
      let colour ← getPart parts 3
      let location ← StringToLocation (← getPart parts 4)
      let texture ← getPart parts 5
      let material ← getPart parts 6
      let shader ← getPart parts 7
      .ok { st with scenery :=
        st.scenery ++ [⟨name, mesh, colour, location, texture, material, shader⟩] }
    else if p0 = chars "dialog" then do
      let name ← getPart parts 1
      let ty ← getPart parts 2
      let bg ← getPart parts 3
      let fg ← getPart parts 4
      let author ← getPart parts 5
      let content ← getPart parts 6
      let location ← StringToLocation (← getPart parts 7)
      let elems ← getPart parts 8
      .ok { st with dialog :=
        st.dialog ++ [⟨name, ty, bg, fg, author, content, location, splitOn ',' elems⟩] }
    else
      .ok st

/-- The scan loop of `ReadPuzzle` over the whole token stream. -/
def runLines (st : PState) : List (List Char) → Except GoErr PState
  | [] => .ok st
  | l :: ls =>
    match readLine st l with
    | .error e => .error e
    | .ok st2 => runLines st2 ls

/-- The final `Puzzle` literal of `ReadPuzzle` (perspective.go:186-197);
the accumulated `int` target is converted to `uint32` here. -/
def buildPuzzle (st : PState) : Puzzle :=
  ⟨st.outline, st.sky, st.block, st.goal, st.portal, st.sphere, st.description,
    toUInt32 st.target, st.scenery, st.dialog⟩

/-- Go `ReadPuzzle` (perspective.go:78-198) applied to the bytes the
reader delivers. -/
def ReadPuzzle (input : List Char) : Except GoErr Puzzle :=
  match runLines initState (scanLines input) with
  | .error e => .error e
  | .ok st => .ok (buildPuzzle st)

/-- An `io.Reader` as `ReadPuzzle` observes it: the bytes delivered
before end-of-file or failure, and the error, if any, that
`bufio.Scanner` records after them. -/
structure ReaderSource where
  data : List Char
  readErr : Option (List Char)
  deriving DecidableEq, Repr

/-- Go `ReadPuzzle` against a fallible reader: when the underlying
reader fails, `scanner.Scan` simply starts returning false, the loop
ends, and `ReadPuzzle` — which never calls `scanner.Err()` — returns
the puzzle built so far with a nil error.  The recorded `readErr`
therefore cannot influence the result. -/
def ReadPuzzleFromReader (src : ReaderSource) : Except GoErr Puzzle :=
  ReadPuzzle src.data

/-- Line `"target:" + fmt.Sprint(puzzle.Target)` (perspective.go:259);
`fmt.Sprint` of a `uint32` prints its decimal digits. -/
def targetLine (p : Puzzle) : List Char := chars "target:" ++ natDigits p.Target

/-- Line emitted for the outline (perspective.go:261). -/
def outlineLine (o : Outline) : List Char :=
  chars "outline:" ++ o.Mesh ++ ':' :: o.Colour ++ ':' :: o.Texture ++
    ':' :: o.Material ++ ':' :: o.Shader

/-- Line emitted per sky entry (perspective.go:264). -/
def skyLine (s : Sky) : List Char :=
  chars "sky:" ++ s.Name ++ ':' :: s.Mesh ++ ':' :: s.Colour ++ ':' :: s.Texture ++
    ':' :: s.Material ++ ':' :: s.Shader

/-- Line emitted for a non-empty description (perspective.go:267). -/
def descriptionLine (p : Puzzle) : List Char := chars "description:" ++ p.Description

/-- Line emitted per block (perspective.go:270). -/
def blockLine (b : Block) : List Char :=
  chars "block:" ++ b.Name ++ ':' :: b.Mesh ++ ':' :: b.Colour ++
    ':' :: LocationToString b.Location ++ ':' :: b.Texture ++ ':' :: b.Material ++
    ':' :: b.Shader

/-- Line emitted per goal (perspective.go:273). -/
def goalLine (g : Goal) : List Char :=
  chars "goal:" ++ g.Name ++ ':' :: g.Mesh ++ ':' :: g.Colour ++
    ':' :: LocationToString g.Location ++ ':' :: g.Texture ++ ':' :: g.Material ++
    ':' :: g.Shader

/-- Line emitted per portal (perspective.go:276). -/
def portalLine (q : Portal) : List Char :=
  chars "portal:" ++ q.Name ++ ':' :: q.Mesh ++ ':' :: q.Colour ++
    ':' :: LocationToString q.Location ++ ':' :: LocationToString q.Link ++
    ':' :: q.Texture ++ ':' :: q.Material ++ ':' :: q.Shader

/-- Line emitted per sphere (perspective.go:279). -/
def sphereLine (s : Sphere) : List Char :=
  chars "sphere:" ++ s.Name ++ ':' :: s.Mesh ++ ':' :: s.Colour ++
    ':' :: LocationToString s.Location ++ ':' :: s.Texture ++ ':' :: s.Material ++
    ':' :: s.Shader

/-- Line emitted per scenery entry (perspective.go:282). -/
def sceneryLine (s : Scenery) : List Char :=
  chars "scenery:" ++ s.Name ++ ':' :: s.Mesh ++ ':' :: s.Colour ++
    ':' :: LocationToString s.Location ++ ':' :: s.Texture ++ ':' :: s.Material ++
    ':' :: s.Shader

/-- Line emitted per dialog (perspective.go:285); the element list is
joined with commas. -/
def dialogLine (d : Dialog) : List Char :=
  chars "dialog:" ++ d.Name ++ ':' :: d.Type' ++ ':' :: d.BackgroundColour ++
    ':' :: d.ForegroundColour ++ ':' :: d.Author ++ ':' :: d.Content ++
    ':' :: LocationToString d.Location ++ ':' :: joinSep ',' d.Element

/-- The outline lines `WritePuzzle` emits: one if an outline is
present (perspective.go:260-262), none otherwise. -/
def outlineLines (o? : Option Outline) : List (List Char) :=
  match o? with
  | some o => [outlineLine o]
  | none => []

/-- The description lines `WritePuzzle` emits: one if the description
is non-empty (perspective.go:266-268), none otherwise. -/
def descLines (p : Puzzle) : List (List Char) :=
  if p.Description = [] then [] else [descriptionLine p]

/-- Go `WritePuzzle` (perspective.go:258-288) as the byte stream its
sequence of `fmt.Fprintln` calls produces: target first
(unconditionally), then outline if present, the sky entries, the
description if non-empty, then blocks, goals, portals, spheres,
scenery and dialogs, each kind in stored order. -/
def WritePuzzle (p : Puzzle) : List Char :=
  (targetLine p ++ ['\n']) ++
  unlines (outlineLines p.Outline) ++
  unlines (p.Sky.map skyLine) ++
  unlines (descLines p) ++
  unlines (p.Block.map blockLine) ++
  unlines (p.Goal.map goalLine) ++
  unlines (p.Portal.map portalLine) ++
  unlines (p.Sphere.map sphereLine) ++
  unlines (p.Scenery.map sceneryLine) ++
  unlines (p.Dialog.map dialogLine)

/-- The lines `WritePuzzle` emits, in emission order. -/
def allLines (p : Puzzle) : List (List Char) :=
  [targetLine p] ++
  outlineLines p.Outline ++
  p.Sky.map skyLine ++
  descLines p ++
  p.Block.map blockLine ++ p.Goal.map goalLine ++ p.Portal.map portalLine ++
  p.Sphere.map sphereLine ++ p.Scenery.map sceneryLine ++ p.Dialog.map dialogLine

/-- An `io.Writer` as `WritePuzzle` can observe it: which of its
`Write` calls fail. -/
def WriterFail : Type := Nat → Bool

/-- State of a writer run: number of `Write` calls made so far and the
bytes successfully written. -/
structure WriteRun where
  calls : Nat
  out : List Char
  deriving DecidableEq, Repr

/-- One `fmt.Fprintln(writer, s)` call: write `s` plus a newline, or
fail; the returned byte count / error pair is exactly what the caller
in perspective.go discards. -/
def fprintlnTo (w : WriterFail) (r : WriteRun) (s : List Char) :
    WriteRun × Except (List Char) Nat :=
  if w r.calls then ({ calls := r.calls + 1, out := r.out }, .error (chars "write error"))
  else ({ calls := r.calls + 1, out := r.out ++ s ++ ['\n'] }, .ok (s.length + 1))

/-- Go `WritePuzzle` (perspective.go:258-288) against a fallible
writer: every `fmt.Fprintln` result is discarded (only the writer
state advances) and the function unconditionally returns nil. -/
def WritePuzzleTo (w : WriterFail) (p : Puzzle) : WriteRun × Except GoErr Unit :=
  let r0 : WriteRun := { calls := 0, out := [] }
  let r1 := (fprintlnTo w r0 (targetLine p)).1
  let r2 := match p.Outline with
    | some o => (fprintlnTo w r1 (outlineLine o)).1
    | none => r1
  let r3 := p.Sky.foldl (fun r s => (fprintlnTo w r (skyLine s)).1) r2
  let r4 := if p.Description = [] then r3 else (fprintlnTo w r3 (descriptionLine p)).1
  let r5 := p.Block.foldl (fun r b => (fprintlnTo w r (blockLine b)).1) r4
  let r6 := p.Goal.foldl (fun r g => (fprintlnTo w r (goalLine g)).1) r5
  let r7 := p.Portal.foldl (fun r q => (fprintlnTo w r (portalLine q)).1) r6
  let r8 := p.Sphere.foldl (fun r s => (fprintlnTo w r (sphereLine s)).1) r7
  let r9 := p.Scenery.foldl (fun r s => (fprintlnTo w r (sceneryLine s)).1) r8
  let r10 := p.Dialog.foldl (fun r d => (fprintlnTo w r (dialogLine d)).1) r9
  (r10, .ok ())

/-- Go `WritePuzzleFile` (perspective.go:249-256): propagate a failed
open, otherwise the result is whatever `WritePuzzle` returns. -/
def WritePuzzleFile (openResult : Except GoErr Unit) (w : WriterFail) (p : Puzzle) :
    Except GoErr Unit :=
  match openResult with
  | .error e => .error e
  | .ok _ => (WritePuzzleTo w p).2

/-- Modelled from the spec: the `World` protobuf message is generated
code that is not part of this repository's source; spec sections 3 and
9 treat it as an opaque serializable container with `Size`, `Marshal`
and `Unmarshal` capabilities over an external schema.  It is modelled
as the byte blob it serializes to. -/
structure World where
  bytes : List Nat
  deriving DecidableEq, Repr

/-- Modelled from the spec: `proto.Size` is the serialized byte length
of the message. -/
def protoSize (w : World) : Nat := w.bytes.length

/-- Modelled from the spec: `proto.Marshal` yields the serialized
bytes; in the opaque blob model it cannot fail. -/
def protoMarshal (w : World) : List Nat := w.bytes

/-- Modelled from the spec: `proto.Unmarshal` reconstructs the message
from exactly the given bytes. -/
def protoUnmarshal (b : List Nat) : Except (List Char) World := .ok ⟨b⟩

/-- Loop of `proto.DecodeVarint` (`for shift := uint(0); shift < 64;
shift += 7`, which runs at most ten times — the remaining iteration
count is the structural fuel): consume one byte per step, abort with
`(0, 0)` on a short buffer or when the shift range is exhausted.
`x |= (b & 0x7F) << shift` is kept as a bitwise or, with the `uint64`
accumulator reduced mod 2^64, and `b & 0x80 == 0` written as
`b % 256 < 128`. -/
def decodeVarintLoop : List Nat → Nat → Nat → Nat → Nat → Nat × Nat
  | _, 0, _, _, _ => (0, 0)
  | buf, fuel + 1, shift, x, n =>
    match buf with
    | [] => (0, 0)
    | b :: rest =>
      let x2 := (x ||| (b % 256 % 128) <<< shift) % 2 ^ 64
      if b % 256 < 128 then (x2, n + 1)
      else decodeVarintLoop rest fuel (shift + 7) x2 (n + 1)

/-- Go `proto.DecodeVarint(buf)`: the decoded value and the number of
bytes consumed, `(0, 0)` when no varint can be decoded. -/
def decodeVarint (buf : List Nat) : Nat × Nat := decodeVarintLoop buf 10 0 0 0

/-- Loop of `proto.EncodeVarint`: emit seven bits per byte, low group
first, continuation bit `0x80` on every byte but the last; fuel 10
covers every `uint64`. -/
def encodeVarintLoop : Nat → Nat → List Nat
  | _, 0 => []
  | x, fuel + 1 =>
    if x ≤ 127 then [x] else (128 + x % 128) :: encodeVarintLoop (x / 128) fuel

/-- Go `proto.EncodeVarint(x)` for a `uint64` argument. -/
def encodeVarint (x : Nat) : List Nat := encodeVarintLoop (x % 2 ^ 64) 10

/-- Go slicing `buf[a:b]` on the buffer `ioutil.ReadAll` returns: the
two-index slice expression checks the high index against the
*capacity*, which for a `ReadAll` buffer exceeds the length by a
positive `slack` (at least `bytes.MinRead` = 512, since the buffer is
grown before the final EOF read).  The array cells between length and
capacity were never written and hold zeros, so an in-capacity slice
past the length silently reads zero padding; only a high index beyond
the capacity is a runtime panic. -/
def sliceCap (l : List Nat) (slack a b : Nat) : Except GoErr (List Nat) :=
  if a ≤ b ∧ b ≤ l.length + slack then
    .ok (((l ++ List.replicate slack 0).drop a).take (b - a))
  else .error (.panic (chars "slice bounds out of range"))

/-- Go `WriteWorld` (perspective.go:62-76) as the bytes written on
success: the varint-encoded `proto.Size`, then the `proto.Marshal`
payload. -/
def WriteWorld (w : World) : List Nat :=
  encodeVarint (protoSize w) ++ protoMarshal w

/-- Go `ReadWorldFile` (perspective.go:42-50) from the point where the
file's bytes sit in `buffer` (capacity slack `slack` beyond its
length): decode the varint size prefix (`s <= 0` is the only framing
check), then unmarshal `buffer[s : s+size]` — the code never checks
`size` against the available bytes, so an oversized `size` within the
capacity slack silently hands zero-padded bytes to `proto.Unmarshal`,
and a `size` beyond even the capacity is a runtime panic. -/
def readWorldBuffer (buffer : List Nat) (slack : Nat) : Except GoErr World :=
  let sz := decodeVarint buffer
  if sz.2 ≤ 0 then .error (.returned (chars "Could not read size"))
  else
    match sliceCap buffer slack sz.2 (sz.2 + sz.1) with
    | .error e => .error e
    | .ok payload =>
      match protoUnmarshal payload with
      | .error e => .error (.returned e)
      | .ok w => .ok w

/-- Go `ReadWorldFile` (perspective.go:32-51) including the open/read
step: an operating system failure is returned to the caller as-is;
`slack` is the capacity slack of the `ReadAll` buffer. -/
def ReadWorldFile (contents : Except (List Char) (List Nat)) (slack : Nat) :
    Except GoErr World :=
  match contents with
  | .error e => .error (.returned e)
  | .ok buffer => readWorldBuffer buffer slack

/-- Decidable equality on `Except`, for evaluating the codec on
concrete inputs. -/
instance exceptDecEq {e a : Type} [DecidableEq e] [DecidableEq a] :
    DecidableEq (Except e a) := fun x y =>
  match x, y with
  | .ok v, .ok w => if h : v = w then isTrue (by rw [h]) else isFalse (by simp [h])
  | .error v, .error w =>
    if h : v = w then isTrue (by rw [h]) else isFalse (by simp [h])
  | .ok _, .error _ => isFalse (by simp)
  | .error _, .ok _ => isFalse (by simp)

/-- The validity premise exactly as the round-trip claim of the spec
states it: a free-text field may not contain an embedded ':' or ','. -/
def noDelims (s : List Char) : Bool := s.all fun c => !(c == ':' || c == ',')

/-- Claim-stated validity of an `Outline`. -/
def Outline.noDelim (o : Outline) : Bool :=
  noDelims o.Mesh && noDelims o.Colour && noDelims o.Texture && noDelims o.Material &&
    noDelims o.Shader

/-- Claim-stated validity of a `Sky`. -/
def Sky.noDelim (s : Sky) : Bool :=
  noDelims s.Name && noDelims s.Mesh && noDelims s.Colour && noDelims s.Texture &&
    noDelims s.Material && noDelims s.Shader

/-- Claim-stated validity of a `Block`. -/
def Block.noDelim (b : Block) : Bool :=
  noDelims b.Name && noDelims b.Mesh && noDelims b.Colour && b.Location.inRange &&
    noDelims b.Texture && noDelims b.Material && noDelims b.Shader

/-- Claim-stated validity of a `Goal`. -/
def Goal.noDelim (g : Goal) : Bool :=
  noDelims g.Name && noDelims g.Mesh && noDelims g.Colour && g.Location.inRange &&
    noDelims g.Texture && noDelims g.Material && noDelims g.Shader

/-- Claim-stated validity of a `Portal`. -/
def Portal.noDelim (q : Portal) : Bool :=
  noDelims q.Name && noDelims q.Mesh && noDelims q.Colour && q.Location.inRange &&
    q.Link.inRange && noDelims q.Texture && noDelims q.Material && noDelims q.Shader

/-- Claim-stated validity of a `Sphere`. -/
def Sphere.noDelim (s : Sphere) : Bool :=
  noDelims s.Name && noDelims s.Mesh && noDelims s.Colour && s.Location.inRange &&
    noDelims s.Texture && noDelims s.Material && noDelims s.Shader

/-- Claim-stated validity of a `Scenery`. -/
def Scenery.noDelim (s : Scenery) : Bool :=
  noDelims s.Name && noDelims s.Mesh && noDelims s.Colour && s.Location.inRange &&
    noDelims s.Texture && noDelims s.Material && noDelims s.Shader

/-- Claim-stated validity of a `Dialog`. -/
def Dialog.noDelim (d : Dialog) : Bool :=
  noDelims d.Name && noDelims d.Type' && noDelims d.BackgroundColour &&
    noDelims d.ForegroundColour && noDelims d.Author && noDelims d.Content &&
    d.Location.inRange && d.Element.all noDelims

/-- Claim-stated validity of a whole `Puzzle`: no embedded ':' or ','
in any free-text field (and the numeric fields within their Go types,
which the Go type system guarantees). -/
def Puzzle.noDelim (p : Puzzle) : Bool :=
  (match p.Outline with
   | none => true
   | some o => o.noDelim) &&
  p.Sky.all Sky.noDelim && p.Block.all Block.noDelim && p.Goal.all Goal.noDelim &&
  p.Portal.all Portal.noDelim && p.Sphere.all Sphere.noDelim &&
  noDelims p.Description && decide (p.Target < 2 ^ 32) &&
  p.Scenery.all Scenery.noDelim && p.Dialog.all Dialog.noDelim

/-- A puzzle whose description contains a newline but no ':' or ',':
it satisfies the round-trip claim's stated validity premise, yet does
not survive the round trip. -/
def badPuzzle : Puzzle :=
  ⟨none, [], [], [], [], [], chars "a\nb", 0, [], []⟩

/-- A fully populated valid puzzle used to witness the round trip. -/
def samplePuzzle : Puzzle :=
  { Outline := some ⟨chars "om", chars "oc", chars "ot", chars "oma", chars "os"⟩,
    Sky := [⟨chars "s1", chars "sm", chars "sc", chars "st", chars "sma", chars "ss"⟩],
    Block := [⟨chars "b1", chars "cube", chars "red", ⟨0, 1, 2, 3⟩, chars "t1",
        chars "m1", chars "h1"⟩,
      ⟨chars "b2", chars "cube", chars "blue", ⟨-1, 4, 5, 6⟩, chars "t2", chars "m2",
        chars "h2"⟩],
    Goal := [⟨chars "g1", chars "gm", chars "gc", ⟨0, 0, 0, 0⟩, chars "gt",
        chars "gma", chars "gs"⟩],
    Portal := [⟨chars "p1", chars "ring", chars "blue", ⟨0, 0, 0, 0⟩, ⟨0, 5, 5, 5⟩,
        chars "pt", chars "pm", chars "ps"⟩],
    Sphere := [⟨chars "q1", chars "qm", chars "qc", ⟨0, 7, 8, 9⟩, chars "qt",
        chars "qma", chars "qs"⟩],
    Description := chars "a demo",
    Target := 3,
    Scenery := [⟨chars "c1", chars "cm", chars "cc", ⟨2, 1, 1, 1⟩, chars "ct",
        chars "cma", chars "cs"⟩],
    Dialog := [⟨chars "d1", chars "dt", chars "bg", chars "fg", chars "au",
        chars "co", ⟨0, 1, 1, 1⟩, [chars "e1", chars "e2"]⟩] }

theorem splitOn_ne_nil (c : Char) (s : List Char) : splitOn c s ≠ [] := by
  induction s with
  | nil => simp [splitOn]
  | cons x rest ih =>
    rw [splitOn]
    split
    · simp
    · split
      · simp
      · simp

theorem splitOn_no_sep (c : Char) (s : List Char) (h : c ∉ s) : splitOn c s = [s] := by
  induction s with
  | nil => rfl
  | cons x rest ih =>
    have hx : ¬x = c := by
      intro hxc
      exact h (by simp [hxc])
    have hr : splitOn c rest = [rest] := ih (fun hc => h (by simp [hc]))
    rw [splitOn, if_neg hx, hr]

theorem splitOn_sep_append (c : Char) (x rest : List Char) (h : c ∉ x) :
    splitOn c (x ++ c :: rest) = x :: splitOn c rest := by
  induction x with
  | nil => simp [splitOn]
  | cons a t ih =>
    have ha : ¬a = c := by
      intro hac
      exact h (by simp [hac])
    have ht : splitOn c (t ++ c :: rest) = t :: splitOn c rest :=
      ih (fun hc => h (by simp [hc]))
    rw [List.cons_append, splitOn, if_neg ha, ht]

theorem splitOn_joinSep (c : Char) (parts : List (List Char)) (hne : parts ≠ [])
    (h : ∀ p ∈ parts, c ∉ p) : splitOn c (joinSep c parts) = parts := by
  induction parts with
  | nil => exact absurd rfl hne
  | cons x rest ih =>
    cases rest with
    | nil =>
      have := splitOn_no_sep c x (h x (by simp))
      simpa [joinSep] using this
    | cons y t =>
      rw [joinSep, splitOn_sep_append c x _ (h x (by simp))]
      rw [ih (by simp) (fun p hp => h p (by simp [hp]))]

theorem dropTrailCR_of_not_mem (s : List Char) (h : '\r' ∉ s) : dropTrailCR s = s := by
  unfold dropTrailCR
  split
  · next hl =>
    obtain ⟨hne, hx⟩ := List.mem_getLast?_eq_getLast (l := s) (x := '\r') hl
    exact absurd (hx ▸ List.getLast_mem hne) h
  · rfl

theorem unlines_eq_concat (ls : List (List Char)) (h : ls ≠ []) :
    ∃ t, unlines ls = t ++ ['\n'] := by
  induction ls with
  | nil => exact absurd rfl h
  | cons l rest ih =>
    cases rest with
    | nil => exact ⟨l, rfl⟩
    | cons m t =>
      obtain ⟨u, hu⟩ := ih (by simp)
      refine ⟨l ++ '\n' :: u, ?_⟩
      rw [unlines, hu]
      simp

theorem splitOn_unlines (ls : List (List Char)) (h : ∀ l ∈ ls, '\n' ∉ l) :
    splitOn '\n' (unlines ls) = ls ++ [[]] := by
  induction ls with
  | nil => rfl
  | cons l rest ih =>
    rw [unlines, splitOn_sep_append _ _ _ (h l (by simp))]
    rw [ih (fun m hm => h m (by simp [hm]))]
    rfl

theorem scanLines_unlines (ls : List (List Char))
    (h : ∀ l ∈ ls, '\n' ∉ l ∧ '\r' ∉ l) : scanLines (unlines ls) = ls := by
  cases hls : ls with
  | nil => rfl
  | cons l rest =>
    obtain ⟨t, ht⟩ := unlines_eq_concat ls (by simp [hls])
    rw [← hls]
    unfold scanLines
    rw [if_neg (by simp [ht]), if_pos (by simp [ht])]
    rw [splitOn_unlines ls (fun m hm => (h m hm).1)]
    rw [List.dropLast_concat]
    have : ∀ ms : List (List Char), (∀ m ∈ ms, '\r' ∉ m) → ms.map dropTrailCR = ms := by
      intro ms hms
      induction ms with
      | nil => rfl
      | cons m mt ihm =>
        rw [List.map_cons, dropTrailCR_of_not_mem m (hms m (by simp)),
          ihm (fun a ha => hms a (by simp [ha]))]
    exact this ls (fun m hm => (h m hm).2)

theorem digitChar_class (d : Nat) : 48 ≤ (digitChar d).toNat ∧ (digitChar d).toNat ≤ 57 := by
  rcases d with _|_|_|_|_|_|_|_|_|d <;> simp [digitChar]

theorem digToNat?_digitChar (d : Nat) (h : d < 10) : digToNat? (digitChar d) = some d := by
  interval_cases d <;> decide

theorem digit_ne_special (c : Char) (h1 : 48 ≤ c.toNat) (h2 : c.toNat ≤ 57) :
    c ≠ ':' ∧ c ≠ ',' ∧ c ≠ '\n' ∧ c ≠ '\r' ∧ c ≠ '-' ∧ c ≠ '+' ∧ c ≠ '#' := by
  refine ⟨?_, ?_, ?_, ?_, ?_, ?_, ?_⟩ <;> rintro rfl <;>
    first
    | exact absurd h1 (by decide)
    | exact absurd h2 (by decide)

theorem natDigitsGo_class (n : Nat) :
    ∀ f, ∀ c ∈ natDigitsGo n f, 48 ≤ c.toNat ∧ c.toNat ≤ 57 := by
  induction n using Nat.strong_induction_on with
  | _ n ih =>
    intro f c hc
    cases f with
    | zero => simp [natDigitsGo] at hc
    | succ f =>
      by_cases hn : n = 0
      · subst hn
        simp [natDigitsGo] at hc
      · rw [natDigitsGo, if_neg hn] at hc
        rcases List.mem_append.mp hc with h | h
        · exact ih (n / 10) (Nat.div_lt_self (Nat.pos_of_ne_zero hn) (by decide)) f c h
        · rw [List.mem_singleton.mp h]
          exact digitChar_class (n % 10)

theorem natDigits_class (n : Nat) : ∀ c ∈ natDigits n, 48 ≤ c.toNat ∧ c.toNat ≤ 57 := by
  intro c hc
  unfold natDigits at hc
  split at hc
  · rw [List.mem_singleton.mp hc]
    decide
  · exact natDigitsGo_class n n c hc

theorem natDigits_ne_nil (n : Nat) : natDigits n ≠ [] := by
  unfold natDigits
  split
  · simp
  · next hn =>
    obtain ⟨m, rfl⟩ : ∃ m, n = m + 1 := ⟨n - 1, by omega⟩
    rw [natDigitsGo, if_neg hn]
    simp

theorem digitsVal?_append_singleton (xs : List Char) (c : Char) :
    digitsVal? (xs ++ [c]) =
      (digitsVal? xs).bind fun a => (digToNat? c).map fun d => a * 10 + d := by
  simp [digitsVal?, List.foldl_append]

theorem digitsVal?_natDigitsGo (n : Nat) :
    ∀ f, n ≤ f → digitsVal? (natDigitsGo n f) = some n := by
  induction n using Nat.strong_induction_on with
  | _ n ih =>
    intro f hf
    cases f with
    | zero =>
      have : n = 0 := by omega
      subst this
      rfl
    | succ f =>
      by_cases hn : n = 0
      · subst hn
        rfl
      · rw [natDigitsGo, if_neg hn, digitsVal?_append_singleton]
        rw [ih (n / 10) (Nat.div_lt_self (Nat.pos_of_ne_zero hn) (by decide)) f (by omega)]
        rw [digToNat?_digitChar (n % 10) (Nat.mod_lt n (by decide))]
        simp
        omega

theorem digitsToNat?_natDigits (n : Nat) : digitsToNat? (natDigits n) = some n := by
  by_cases hn : n = 0
  · subst hn
    decide
  · rw [digitsToNat?, if_neg (natDigits_ne_nil n)]
    unfold natDigits
    rw [if_neg hn]
    exact digitsVal?_natDigitsGo n n le_rfl

theorem Atoi_itoa (v : Int) (h1 : -(2 : Int) ^ 63 ≤ v) (h2 : v ≤ 2 ^ 63 - 1) :
    Atoi (itoa v) = .ok v := by
  by_cases hv : v < 0
  · rw [itoa, if_pos hv]
    rw [Atoi, if_pos rfl, digitsToNat?_natDigits]
    show (if ((-v).toNat : Int) ≤ 2 ^ 63 then Except.ok (-((-v).toNat : Int))
      else Except.error (chars "value out of range")) = Except.ok v
    rw [if_pos (show ((-v).toNat : Int) ≤ 2 ^ 63 by omega)]
    congr 1
    omega
  · rw [itoa, if_neg hv]
    obtain ⟨c, rest, hcr⟩ : ∃ c rest, natDigits v.toNat = c :: rest := by
      cases h : natDigits v.toNat with
      | nil => exact absurd h (natDigits_ne_nil _)
      | cons c r => exact ⟨c, r, rfl⟩
    have hcls := natDigits_class v.toNat c (by rw [hcr]; simp)
    have hne := digit_ne_special c hcls.1 hcls.2
    rw [hcr, Atoi, if_neg hne.2.2.2.2.1, if_neg hne.2.2.2.2.2.1, ← hcr,
      digitsToNat?_natDigits]
    show (if (v.toNat : Int) ≤ 2 ^ 63 - 1 then Except.ok ((v.toNat : Int))
      else Except.error (chars "value out of range")) = Except.ok v
    rw [if_pos (show ((v.toNat : Int)) ≤ 2 ^ 63 - 1 by omega)]
    congr 1
    omega

theorem itoa_class (v : Int) :
    ∀ c ∈ itoa v, (48 ≤ c.toNat ∧ c.toNat ≤ 57) ∨ c = '-' := by
  intro c hc
  unfold itoa at hc
  split at hc
  · rcases List.mem_cons.mp hc with h | h
    · exact Or.inr h
    · exact Or.inl (natDigits_class _ c h)
  · exact Or.inl (natDigits_class _ c hc)

theorem itoa_ne_special (v : Int) :
    ∀ c ∈ itoa v, c ≠ ':' ∧ c ≠ ',' ∧ c ≠ '\n' ∧ c ≠ '\r' := by
  intro c hc
  rcases itoa_class v c hc with h | h
  · have h2 := digit_ne_special c h.1 h.2
    exact ⟨h2.1, h2.2.1, h2.2.2.1, h2.2.2.2.1⟩
  · subst h
    exact ⟨by decide, by decide, by decide, by decide⟩

theorem comma_not_mem_itoa (v : Int) : ',' ∉ itoa v :=
  fun hc => (itoa_ne_special v ',' hc).2.1 rfl

theorem colon_not_mem_itoa (v : Int) : ':' ∉ itoa v :=
  fun hc => (itoa_ne_special v ':' hc).1 rfl

theorem LocationToString_eq_joinSep (l : Location) :
    LocationToString l =
      if l.W = 0 then joinSep ',' [itoa l.X, itoa l.Y, itoa l.Z]
      else joinSep ',' [itoa l.W, itoa l.X, itoa l.Y, itoa l.Z] := by
  unfold LocationToString
  split <;> simp [joinSep]

theorem splitOn_LocationToString (l : Location) :
    splitOn ',' (LocationToString l) =
      if l.W = 0 then [itoa l.X, itoa l.Y, itoa l.Z]
      else [itoa l.W, itoa l.X, itoa l.Y, itoa l.Z] := by
  rw [LocationToString_eq_joinSep]
  split
  · refine splitOn_joinSep _ _ (by simp) ?_
    intro p hp
    simp only [List.mem_cons, List.not_mem_nil, or_false] at hp
    rcases hp with rfl | rfl | rfl <;> exact comma_not_mem_itoa _
  · refine splitOn_joinSep _ _ (by simp) ?_
    intro p hp
    simp only [List.mem_cons, List.not_mem_nil, or_false] at hp
    rcases hp with rfl | rfl | rfl | rfl <;> exact comma_not_mem_itoa _

theorem toInt32_eq_self (v : Int) (h1 : -(2 : Int) ^ 31 ≤ v) (h2 : v < 2 ^ 31) :
    toInt32 v = v := by
  unfold toInt32
  rw [Int.emod_eq_of_lt (by omega) (by omega)]
  omega

theorem StringToInt_itoa (v : Int) (h1 : -(2 : Int) ^ 63 ≤ v) (h2 : v ≤ 2 ^ 63 - 1) :
    StringToInt (itoa v) = .ok v := by
  unfold StringToInt
  rw [Atoi_itoa v h1 h2]

/-- Round-trip of the location codec for values that fit in `int32`
(which every field of a Go `Location` does). -/
theorem StringToLocation_LocationToString (l : Location) (h : l.inRange = true) :
    StringToLocation (LocationToString l) = .ok l := by
  obtain ⟨W, X, Y, Z⟩ := l
  simp only [Location.inRange, inInt32, Bool.and_eq_true, decide_eq_true_eq] at h
  obtain ⟨⟨⟨hW, hX⟩, hY⟩, hZ⟩ := h
  by_cases hw : W = 0
  · subst hw
    rw [StringToLocation, splitOn_LocationToString, if_pos rfl]
    simp only [StringToInt_itoa X (by omega) (by omega),
      StringToInt_itoa Y (by omega) (by omega),
      StringToInt_itoa Z (by omega) (by omega)]
    simp only [bind, Except.bind, pure, Except.pure]
    rw [toInt32_eq_self X hX.1 hX.2, toInt32_eq_self Y hY.1 hY.2,
      toInt32_eq_self Z hZ.1 hZ.2]
    rfl
  · rw [StringToLocation, splitOn_LocationToString, if_neg (by simpa using hw)]
    simp only [StringToInt_itoa W (by omega) (by omega),
      StringToInt_itoa X (by omega) (by omega),
      StringToInt_itoa Y (by omega) (by omega),
      StringToInt_itoa Z (by omega) (by omega)]
    simp only [bind, Except.bind, pure, Except.pure]
    rw [toInt32_eq_self W hW.1 hW.2, toInt32_eq_self X hX.1 hX.2,
      toInt32_eq_self Y hY.1 hY.2, toInt32_eq_self Z hZ.1 hZ.2]

theorem unlines_append (a b : List (List Char)) :
    unlines (a ++ b) = unlines a ++ unlines b := by
  induction a with
  | nil => rfl
  | cons l t ih => simp [unlines, ih]

theorem WritePuzzle_eq_unlines (p : Puzzle) : WritePuzzle p = unlines (allLines p) := by
  unfold WritePuzzle allLines
  simp [unlines_append, unlines]

theorem lor_disjoint (s a b : Nat) (h : a < 2 ^ s) :
    a ||| b <<< s = a + b * 2 ^ s := by
  apply Nat.eq_of_testBit_eq
  intro i
  rw [Nat.testBit_lor, Nat.testBit_shiftLeft]
  by_cases hi : s ≤ i
  · obtain ⟨k, rfl⟩ : ∃ k, i = s + k := ⟨i - s, by omega⟩
    have ha : a.testBit (s + k) = false :=
      Nat.testBit_lt_two_pow
        (lt_of_lt_of_le h (Nat.pow_le_pow_right (by norm_num) (by omega)))
    rw [ha, decide_eq_true hi, Nat.add_sub_cancel_left]
    simp only [Bool.false_or, Bool.true_and]
    rw [Nat.testBit_to_div_mod, Nat.testBit_to_div_mod]
    have h1 : (a + b * 2 ^ s) / 2 ^ (s + k) = b / 2 ^ k := by
      rw [pow_add, ← Nat.div_div_eq_div_mul, Nat.mul_comm b (2 ^ s),
        Nat.add_mul_div_left _ _ (by positivity), Nat.div_eq_of_lt h, Nat.zero_add]
    rw [h1]
  · push_neg at hi
    obtain ⟨k, rfl⟩ : ∃ k, s = i + (k + 1) := ⟨s - i - 1, by omega⟩
    rw [decide_eq_false (by omega)]
    simp only [Bool.false_and, Bool.or_false]
    rw [Nat.testBit_to_div_mod, Nat.testBit_to_div_mod]
    have h2 : (a + b * 2 ^ (i + (k + 1))) / 2 ^ i = a / 2 ^ i + b * 2 ^ k * 2 := by
      have hb : b * 2 ^ (i + (k + 1)) = 2 ^ i * (b * 2 ^ k * 2) := by
        rw [pow_add, pow_succ]
        ring
      rw [hb, Nat.add_mul_div_left _ _ (by positivity)]
    rw [h2, Nat.add_mul_mod_self_right]

theorem decode_small (x : Nat) (hx : x ≤ 127) (rest : List Nat)
    (kD shift acc n : Nat) (hkD : 1 ≤ kD) (hacc : acc < 2 ^ shift)
    (hlt : acc + x * 2 ^ shift < 2 ^ 64) :
    decodeVarintLoop (x :: rest) kD shift acc n = (acc + x * 2 ^ shift, n + 1) := by
  obtain ⟨kD2, rfl⟩ : ∃ m, kD = m + 1 := ⟨kD - 1, by omega⟩
  rw [decodeVarintLoop]
  have hx256 : x % 256 = x := Nat.mod_eq_of_lt (by omega)
  simp only [hx256]
  rw [if_pos (by omega)]
  have hx128 : x % 128 = x := Nat.mod_eq_of_lt (by omega)
  rw [hx128, lor_disjoint shift acc x hacc, Nat.mod_eq_of_lt hlt]

theorem decode_encode_loop :
    ∀ (kE : Nat), ∀ x < 128 ^ (kE + 1),
      ∀ (rest : List Nat) (kD shift acc n : Nat), kE + 1 ≤ kD → acc < 2 ^ shift →
        acc + x * 2 ^ shift < 2 ^ 64 →
        decodeVarintLoop (encodeVarintLoop x (kE + 1) ++ rest) kD shift acc n =
          (acc + x * 2 ^ shift, n + (encodeVarintLoop x (kE + 1)).length) := by
  intro kE
  induction kE with
  | zero =>
    intro x hx rest kD shift acc n hkD hacc hlt
    have hx127 : x ≤ 127 := by
      have : (128 : Nat) ^ 1 = 128 := by norm_num
      omega
    rw [encodeVarintLoop, if_pos hx127, List.cons_append, List.nil_append,
      decode_small x hx127 rest kD shift acc n hkD hacc hlt]
    rfl
  | succ kE ih =>
    intro x hx rest kD shift acc n hkD hacc hlt
    by_cases hx127 : x ≤ 127
    · rw [encodeVarintLoop, if_pos hx127, List.cons_append, List.nil_append,
        decode_small x hx127 rest kD shift acc n (by omega) hacc hlt]
      rfl
    · rw [encodeVarintLoop, if_neg hx127, List.cons_append]
      obtain ⟨kD2, rfl⟩ : ∃ m, kD = m + 1 := ⟨kD - 1, by omega⟩
      rw [decodeVarintLoop]
      have hmod : x % 128 ≤ 127 := by omega
      have hb256 : (128 + x % 128) % 256 = 128 + x % 128 := Nat.mod_eq_of_lt (by omega)
      simp only [hb256]
      rw [if_neg (by omega)]
      have hb128 : (128 + x % 128) % 128 = x % 128 := by omega
      rw [hb128, lor_disjoint shift acc (x % 128) hacc]
      have hle : acc + x % 128 * 2 ^ shift ≤ acc + x * 2 ^ shift :=
        Nat.add_le_add_left (Nat.mul_le_mul_right _ (Nat.mod_le x 128)) acc
      rw [Nat.mod_eq_of_lt (by omega)]
      have hpow : (2 : Nat) ^ (shift + 7) = 2 ^ shift * 128 := by
        rw [pow_add]
        norm_num
      have hacc2 : acc + x % 128 * 2 ^ shift < 2 ^ (shift + 7) := by
        have h127 : x % 128 * 2 ^ shift ≤ 127 * 2 ^ shift :=
          Nat.mul_le_mul_right _ hmod
        omega
      have hdiv : x / 128 < 128 ^ (kE + 1) := by
        rw [Nat.div_lt_iff_lt_mul (by norm_num)]
        calc x < 128 ^ (kE + 1 + 1) := hx
        _ = 128 ^ (kE + 1) * 128 := by rw [pow_succ]
      have hsum : acc + x % 128 * 2 ^ shift + x / 128 * 2 ^ (shift + 7) =
          acc + x * 2 ^ shift := by
        rw [hpow]
        have hxm : x % 128 + 128 * (x / 128) = x := Nat.mod_add_div x 128
        calc acc + x % 128 * 2 ^ shift + x / 128 * (2 ^ shift * 128)
            = acc + (x % 128 + 128 * (x / 128)) * 2 ^ shift := by ring
        _ = acc + x * 2 ^ shift := by rw [hxm]
      rw [ih (x / 128) hdiv rest kD2 (shift + 7) _ (n + 1) (by omega) hacc2
        (by omega)]
      rw [hsum]
      refine Prod.ext rfl ?_
      simp only [List.length_cons]
      omega

theorem encodeVarint_ne_nil (x : Nat) : encodeVarint x ≠ [] := by
  unfold encodeVarint
  rw [encodeVarintLoop]
  split <;> simp

/-- Round-trip of the varint framing: decoding a buffer that starts
with `EncodeVarint x` yields `x` and consumes exactly the encoded
bytes, whatever follows. -/
theorem decodeVarint_encodeVarint (x : Nat) (hx : x < 2 ^ 64) (rest : List Nat) :
    decodeVarint (encodeVarint x ++ rest) = (x, (encodeVarint x).length) := by
  unfold decodeVarint encodeVarint
  rw [Nat.mod_eq_of_lt hx]
  have h10 : x < 128 ^ (9 + 1) := lt_of_lt_of_le hx (by norm_num)
  have h := decode_encode_loop 9 x h10 rest 10 0 0 0 (by omega) (by norm_num)
    (by simpa using hx)
  simpa using h

theorem skip_cond_false (line : List Char) (h : ∃ c t, line = c :: t ∧ c ≠ '#') :
    ¬(line = [] ∨ ['#'].isPrefixOf line) := by
  obtain ⟨c, t, rfl, hc⟩ := h
  intro h2
  rcases h2 with h2 | h2
  · simp at h2
  · simp only [List.isPrefixOf, List.isPrefixOf_nil_left, Bool.and_true, beq_iff_eq] at h2
    exact hc h2.symm

theorem ok_bind {α β : Type} (a : α) (f : α → Except GoErr β) :
    (Except.ok a >>= f) = f a := rfl

theorem getPart_one (x0 x1 : List Char) (xs : List (List Char)) :
    getPart (x0 :: x1 :: xs) 1 = .ok x1 := rfl

theorem getPart_two (x0 x1 x2 : List Char) (xs : List (List Char)) :
    getPart (x0 :: x1 :: x2 :: xs) 2 = .ok x2 := rfl

theorem getPart_three (x0 x1 x2 x3 : List Char) (xs : List (List Char)) :
    getPart (x0 :: x1 :: x2 :: x3 :: xs) 3 = .ok x3 := rfl

theorem getPart_four (x0 x1 x2 x3 x4 : List Char) (xs : List (List Char)) :
    getPart (x0 :: x1 :: x2 :: x3 :: x4 :: xs) 4 = .ok x4 := rfl

theorem getPart_five (x0 x1 x2 x3 x4 x5 : List Char) (xs : List (List Char)) :
    getPart (x0 :: x1 :: x2 :: x3 :: x4 :: x5 :: xs) 5 = .ok x5 := rfl

theorem getPart_six (x0 x1 x2 x3 x4 x5 x6 : List Char) (xs : List (List Char)) :
    getPart (x0 :: x1 :: x2 :: x3 :: x4 :: x5 :: x6 :: xs) 6 = .ok x6 := rfl

theorem getPart_seven (x0 x1 x2 x3 x4 x5 x6 x7 : List Char) (xs : List (List Char)) :
    getPart (x0 :: x1 :: x2 :: x3 :: x4 :: x5 :: x6 :: x7 :: xs) 7 = .ok x7 := rfl

theorem getPart_eight (x0 x1 x2 x3 x4 x5 x6 x7 x8 : List Char) (xs : List (List Char)) :
    getPart (x0 :: x1 :: x2 :: x3 :: x4 :: x5 :: x6 :: x7 :: x8 :: xs) 8 = .ok x8 := rfl

theorem clean_not_mem (s : List Char) (h : clean s = true) :
    ':' ∉ s ∧ ',' ∉ s ∧ '\n' ∉ s ∧ '\r' ∉ s := by
  simp only [clean, List.all_eq_true, cleanChar, Bool.not_eq_true', Bool.or_eq_false_iff,
    beq_eq_false_iff_ne, ne_eq] at h
  refine ⟨?_, ?_, ?_, ?_⟩ <;> intro hm
  · exact (h ':' hm).1.1.1 rfl
  · exact (h ',' hm).1.1.2 rfl
  · exact (h '\n' hm).1.2 rfl
  · exact (h '\r' hm).2 rfl

theorem mem_joinSep (sep : Char) (parts : List (List Char)) (c : Char)
    (h : c ∈ joinSep sep parts) : c = sep ∨ ∃ p ∈ parts, c ∈ p := by
  induction parts with
  | nil => simp [joinSep] at h
  | cons x rest ih =>
    cases rest with
    | nil => exact Or.inr ⟨x, by simp, by simpa [joinSep] using h⟩
    | cons y t =>
      rw [joinSep] at h
      rcases List.mem_append.mp h with h1 | h1
      · exact Or.inr ⟨x, by simp, h1⟩
      · rcases List.mem_cons.mp h1 with rfl | h2
        · exact Or.inl rfl
        · rcases ih h2 with h3 | ⟨p, hp, hcp⟩
          · exact Or.inl h3
          · exact Or.inr ⟨p, by simp [hp], hcp⟩

theorem not_mem_joinSep (sep : Char) (parts : List (List Char)) (c : Char)
    (hc : c ≠ sep) (h : ∀ p ∈ parts, c ∉ p) : c ∉ joinSep sep parts := by
  intro hm
  rcases mem_joinSep sep parts c hm with rfl | ⟨p, hp, hcp⟩
  · exact hc rfl
  · exact h p hp hcp

theorem LocationToString_not_mem (l : Location) (c : Char)
    (hc : c = ':' ∨ c = '\n' ∨ c = '\r') : c ∉ LocationToString l := by
  have hit : ∀ v : Int, c ∉ itoa v := by
    intro v hv
    have h4 := itoa_ne_special v c hv
    rcases hc with rfl | rfl | rfl
    · exact h4.1 rfl
    · exact h4.2.2.1 rfl
    · exact h4.2.2.2 rfl
  have hcom : c ≠ ',' := by rcases hc with rfl | rfl | rfl <;> decide
  rw [LocationToString_eq_joinSep]
  split
  · refine not_mem_joinSep _ _ _ hcom ?_
    intro p hp
    simp only [List.mem_cons, List.not_mem_nil, or_false] at hp
    rcases hp with rfl | rfl | rfl <;> exact hit _
  · refine not_mem_joinSep _ _ _ hcom ?_
    intro p hp
    simp only [List.mem_cons, List.not_mem_nil, or_false] at hp
    rcases hp with rfl | rfl | rfl | rfl <;> exact hit _

theorem natDigits_not_mem (n : Nat) (c : Char)
    (hc : c = ':' ∨ c = ',' ∨ c = '\n' ∨ c = '\r') : c ∉ natDigits n := by
  intro hm
  have h := natDigits_class n c hm
  have h2 := digit_ne_special c h.1 h.2
  rcases hc with rfl | rfl | rfl | rfl
  · exact h2.1 rfl
  · exact h2.2.1 rfl
  · exact h2.2.2.1 rfl
  · exact h2.2.2.2.1 rfl

theorem charsTag_outline : chars "outline:" = chars "outline" ++ [':'] := rfl

theorem charsTag_sky : chars "sky:" = chars "sky" ++ [':'] := rfl

theorem charsTag_block : chars "block:" = chars "block" ++ [':'] := rfl

theorem charsTag_goal : chars "goal:" = chars "goal" ++ [':'] := rfl

theorem charsTag_portal : chars "portal:" = chars "portal" ++ [':'] := rfl

theorem charsTag_sphere : chars "sphere:" = chars "sphere" ++ [':'] := rfl

theorem charsTag_scenery : chars "scenery:" = chars "scenery" ++ [':'] := rfl

theorem charsTag_dialog : chars "dialog:" = chars "dialog" ++ [':'] := rfl

theorem targetLine_eq (p : Puzzle) :
    targetLine p = joinSep ':' [chars "target", natDigits p.Target] := rfl

theorem descriptionLine_eq (p : Puzzle) :
    descriptionLine p = joinSep ':' [chars "description", p.Description] := rfl

theorem outlineLine_eq (o : Outline) :
    outlineLine o = joinSep ':' [chars "outline", o.Mesh, o.Colour, o.Texture,
      o.Material, o.Shader] := by
  simp [outlineLine, joinSep, charsTag_outline, List.append_assoc]

theorem skyLine_eq (s : Sky) :
    skyLine s = joinSep ':' [chars "sky", s.Name, s.Mesh, s.Colour, s.Texture,
      s.Material, s.Shader] := by
  simp [skyLine, joinSep, charsTag_sky, List.append_assoc]

theorem blockLine_eq (b : Block) :
    blockLine b = joinSep ':' [chars "block", b.Name, b.Mesh, b.Colour,
      LocationToString b.Location, b.Texture, b.Material, b.Shader] := by
  simp [blockLine, joinSep, charsTag_block, List.append_assoc]

theorem goalLine_eq (g : Goal) :
    goalLine g = joinSep ':' [chars "goal", g.Name, g.Mesh, g.Colour,
      LocationToString g.Location, g.Texture, g.Material, g.Shader] := by
  simp [goalLine, joinSep, charsTag_goal, List.append_assoc]

theorem portalLine_eq (q : Portal) :
    portalLine q = joinSep ':' [chars "portal", q.Name, q.Mesh, q.Colour,
      LocationToString q.Location, LocationToString q.Link, q.Texture, q.Material,
      q.Shader] := by
  simp [portalLine, joinSep, charsTag_portal, List.append_assoc]

theorem sphereLine_eq (s : Sphere) :
    sphereLine s = joinSep ':' [chars "sphere", s.Name, s.Mesh, s.Colour,
      LocationToString s.Location, s.Texture, s.Material, s.Shader] := by
  simp [sphereLine, joinSep, charsTag_sphere, List.append_assoc]

theorem sceneryLine_eq (s : Scenery) :
    sceneryLine s = joinSep ':' [chars "scenery", s.Name, s.Mesh, s.Colour,
      LocationToString s.Location, s.Texture, s.Material, s.Shader] := by
  simp [sceneryLine, joinSep, charsTag_scenery, List.append_assoc]

theorem dialogLine_eq (d : Dialog) :
    dialogLine d = joinSep ':' [chars "dialog", d.Name, d.Type', d.BackgroundColour,
      d.ForegroundColour, d.Author, d.Content, LocationToString d.Location,
      joinSep ',' d.Element] := by
  simp [dialogLine, joinSep, charsTag_dialog, List.append_assoc]

theorem clean_no_colon (s : List Char) (h : clean s = true) : ':' ∉ s :=
  (clean_not_mem s h).1

theorem clean_no_comma (s : List Char) (h : clean s = true) : ',' ∉ s :=
  (clean_not_mem s h).2.1

theorem clean_no_nlcr (s : List Char) (h : clean s = true) (c : Char)
    (hc : c = '\n' ∨ c = '\r') : c ∉ s := by
  have h2 := clean_not_mem s h
  rcases hc with rfl | rfl
  · exact h2.2.2.1
  · exact h2.2.2.2

theorem outline_valid_fields (o : Outline) (h : o.valid = true) :
    clean o.Mesh = true ∧ clean o.Colour = true ∧ clean o.Texture = true ∧
      clean o.Material = true ∧ clean o.Shader = true := by
  simp only [Outline.valid, Bool.and_eq_true] at h
  tauto

theorem sky_valid_fields (s : Sky) (h : s.valid = true) :
    clean s.Name = true ∧ clean s.Mesh = true ∧ clean s.Colour = true ∧
      clean s.Texture = true ∧ clean s.Material = true ∧ clean s.Shader = true := by
  simp only [Sky.valid, Bool.and_eq_true] at h
  tauto

theorem block_valid_fields (b : Block) (h : b.valid = true) :
    clean b.Name = true ∧ clean b.Mesh = true ∧ clean b.Colour = true ∧
      b.Location.inRange = true ∧ clean b.Texture = true ∧ clean b.Material = true ∧
      clean b.Shader = true := by
  simp only [Block.valid, Bool.and_eq_true] at h
  tauto

theorem goal_valid_fields (g : Goal) (h : g.valid = true) :
    clean g.Name = true ∧ clean g.Mesh = true ∧ clean g.Colour = true ∧
      g.Location.inRange = true ∧ clean g.Texture = true ∧ clean g.Material = true ∧
      clean g.Shader = true := by
  simp only [Goal.valid, Bool.and_eq_true] at h
  tauto

theorem portal_valid_fields (q : Portal) (h : q.valid = true) :
    clean q.Name = true ∧ clean q.Mesh = true ∧ clean q.Colour = true ∧
      q.Location.inRange = true ∧ q.Link.inRange = true ∧ clean q.Texture = true ∧
      clean q.Material = true ∧ clean q.Shader = true := by
  simp only [Portal.valid, Bool.and_eq_true] at h
  tauto

theorem sphere_valid_fields (s : Sphere) (h : s.valid = true) :
    clean s.Name = true ∧ clean s.Mesh = true ∧ clean s.Colour = true ∧
      s.Location.inRange = true ∧ clean s.Texture = true ∧ clean s.Material = true ∧
      clean s.Shader = true := by
  simp only [Sphere.valid, Bool.and_eq_true] at h
  tauto

theorem scenery_valid_fields (s : Scenery) (h : s.valid = true) :
    clean s.Name = true ∧ clean s.Mesh = true ∧ clean s.Colour = true ∧
      s.Location.inRange = true ∧ clean s.Texture = true ∧ clean s.Material = true ∧
      clean s.Shader = true := by
  simp only [Scenery.valid, Bool.and_eq_true] at h
  tauto

theorem dialog_valid_fields (d : Dialog) (h : d.valid = true) :
    clean d.Name = true ∧ clean d.Type' = true ∧ clean d.BackgroundColour = true ∧
      clean d.ForegroundColour = true ∧ clean d.Author = true ∧
      clean d.Content = true ∧ d.Location.inRange = true ∧ d.Element ≠ [] ∧
      (∀ e ∈ d.Element, clean e = true) := by
  simp only [Dialog.valid, Bool.and_eq_true, Bool.not_eq_true', List.all_eq_true] at h
  have hne : d.Element ≠ [] := by
    intro he
    have h2 := h.1.2
    rw [he] at h2
    simp at h2
  tauto

theorem splitOn_targetLine (p : Puzzle) :
    splitOn ':' (targetLine p) = [chars "target", natDigits p.Target] := by
  rw [targetLine_eq]
  refine splitOn_joinSep _ _ (by simp) ?_
  intro q hq
  simp only [List.mem_cons, List.not_mem_nil, or_false] at hq
  rcases hq with rfl | rfl
  · decide
  · exact natDigits_not_mem _ ':' (Or.inl rfl)

theorem splitOn_descriptionLine (p : Puzzle) (h : clean p.Description = true) :
    splitOn ':' (descriptionLine p) = [chars "description", p.Description] := by
  rw [descriptionLine_eq]
  refine splitOn_joinSep _ _ (by simp) ?_
  intro q hq
  simp only [List.mem_cons, List.not_mem_nil, or_false] at hq
  rcases hq with rfl | rfl
  · decide
  · exact clean_no_colon _ h

theorem splitOn_outlineLine (o : Outline) (h : o.valid = true) :
    splitOn ':' (outlineLine o) = [chars "outline", o.Mesh, o.Colour, o.Texture,
      o.Material, o.Shader] := by
  obtain ⟨h1, h2, h3, h4, h5⟩ := outline_valid_fields o h
  rw [outlineLine_eq]
  refine splitOn_joinSep _ _ (by simp) ?_
  intro q hq
  simp only [List.mem_cons, List.not_mem_nil, or_false] at hq
  rcases hq with rfl | rfl | rfl | rfl | rfl | rfl
  · decide
  · exact clean_no_colon _ h1
  · exact clean_no_colon _ h2
  · exact clean_no_colon _ h3
  · exact clean_no_colon _ h4
  · exact clean_no_colon _ h5

theorem splitOn_skyLine (s : Sky) (h : s.valid = true) :
    splitOn ':' (skyLine s) = [chars "sky", s.Name, s.Mesh, s.Colour, s.Texture,
      s.Material, s.Shader] := by
  obtain ⟨h1, h2, h3, h4, h5, h6⟩ := sky_valid_fields s h
  rw [skyLine_eq]
  refine splitOn_joinSep _ _ (by simp) ?_
  intro q hq
  simp only [List.mem_cons, List.not_mem_nil, or_false] at hq
  rcases hq with rfl | rfl | rfl | rfl | rfl | rfl | rfl
  · decide
  · exact clean_no_colon _ h1
  · exact clean_no_colon _ h2
  · exact clean_no_colon _ h3
  · exact clean_no_colon _ h4
  · exact clean_no_colon _ h5
  · exact clean_no_colon _ h6

theorem splitOn_blockLine (b : Block) (h : b.valid = true) :
    splitOn ':' (blockLine b) = [chars "block", b.Name, b.Mesh, b.Colour,
      LocationToString b.Location, b.Texture, b.Material, b.Shader] := by
  obtain ⟨h1, h2, h3, _, h5, h6, h7⟩ := block_valid_fields b h
  rw [blockLine_eq]
  refine splitOn_joinSep _ _ (by simp) ?_
  intro q hq
  simp only [List.mem_cons, List.not_mem_nil, or_false] at hq
  rcases hq with rfl | rfl | rfl | rfl | rfl | rfl | rfl | rfl
  · decide
  · exact clean_no_colon _ h1
  · exact clean_no_colon _ h2
  · exact clean_no_colon _ h3
  · exact LocationToString_not_mem _ ':' (Or.inl rfl)
  · exact clean_no_colon _ h5
  · exact clean_no_colon _ h6
  · exact clean_no_colon _ h7

theorem splitOn_goalLine (g : Goal) (h : g.valid = true) :
    splitOn ':' (goalLine g) = [chars "goal", g.Name, g.Mesh, g.Colour,
      LocationToString g.Location, g.Texture, g.Material, g.Shader] := by
  obtain ⟨h1, h2, h3, _, h5, h6, h7⟩ := goal_valid_fields g h
  rw [goalLine_eq]
  refine splitOn_joinSep _ _ (by simp) ?_
  intro q hq
  simp only [List.mem_cons, List.not_mem_nil, or_false] at hq
  rcases hq with rfl | rfl | rfl | rfl | rfl | rfl | rfl | rfl
  · decide
  · exact clean_no_colon _ h1
  · exact clean_no_colon _ h2
  · exact clean_no_colon _ h3
  · exact LocationToString_not_mem _ ':' (Or.inl rfl)
  · exact clean_no_colon _ h5
  · exact clean_no_colon _ h6
  · exact clean_no_colon _ h7

theorem splitOn_portalLine (q : Portal) (h : q.valid = true) :
    splitOn ':' (portalLine q) = [chars "portal", q.Name, q.Mesh, q.Colour,
      LocationToString q.Location, LocationToString q.Link, q.Texture, q.Material,
      q.Shader] := by
  obtain ⟨h1, h2, h3, _, _, h6, h7, h8⟩ := portal_valid_fields q h
  rw [portalLine_eq]
  refine splitOn_joinSep _ _ (by simp) ?_
  intro r hr
  simp only [List.mem_cons, List.not_mem_nil, or_false] at hr
  rcases hr with rfl | rfl | rfl | rfl | rfl | rfl | rfl | rfl | rfl
  · decide
  · exact clean_no_colon _ h1
  · exact clean_no_colon _ h2
  · exact clean_no_colon _ h3
  · exact LocationToString_not_mem _ ':' (Or.inl rfl)
  · exact LocationToString_not_mem _ ':' (Or.inl rfl)
  · exact clean_no_colon _ h6
  · exact clean_no_colon _ h7
  · exact clean_no_colon _ h8

theorem splitOn_sphereLine (s : Sphere) (h : s.valid = true) :
    splitOn ':' (sphereLine s) = [chars "sphere", s.Name, s.Mesh, s.Colour,
      LocationToString s.Location, s.Texture, s.Material, s.Shader] := by
  obtain ⟨h1, h2, h3, _, h5, h6, h7⟩ := sphere_valid_fields s h
  rw [sphereLine_eq]
  refine splitOn_joinSep _ _ (by simp) ?_
  intro q hq
  simp only [List.mem_cons, List.not_mem_nil, or_false] at hq
  rcases hq with rfl | rfl | rfl | rfl | rfl | rfl | rfl | rfl
  · decide
  · exact clean_no_colon _ h1
  · exact clean_no_colon _ h2
  · exact clean_no_colon _ h3
  · exact LocationToString_not_mem _ ':' (Or.inl rfl)
  · exact clean_no_colon _ h5
  · exact clean_no_colon _ h6
  · exact clean_no_colon _ h7

theorem splitOn_sceneryLine (s : Scenery) (h : s.valid = true) :
    splitOn ':' (sceneryLine s) = [chars "scenery", s.Name, s.Mesh, s.Colour,
      LocationToString s.Location, s.Texture, s.Material, s.Shader] := by
  obtain ⟨h1, h2, h3, _, h5, h6, h7⟩ := scenery_valid_fields s h
  rw [sceneryLine_eq]
  refine splitOn_joinSep _ _ (by simp) ?_
  intro q hq
  simp only [List.mem_cons, List.not_mem_nil, or_false] at hq
  rcases hq with rfl | rfl | rfl | rfl | rfl | rfl | rfl | rfl
  · decide
  · exact clean_no_colon _ h1
  · exact clean_no_colon _ h2
  · exact clean_no_colon _ h3
  · exact LocationToString_not_mem _ ':' (Or.inl rfl)
  · exact clean_no_colon _ h5
  · exact clean_no_colon _ h6
  · exact clean_no_colon _ h7

theorem splitOn_dialogLine (d : Dialog) (h : d.valid = true) :
    splitOn ':' (dialogLine d) = [chars "dialog", d.Name, d.Type',
      d.BackgroundColour, d.ForegroundColour, d.Author, d.Content,
      LocationToString d.Location, joinSep ',' d.Element] := by
  obtain ⟨h1, h2, h3, h4, h5, h6, _, _, h9⟩ := dialog_valid_fields d h
  rw [dialogLine_eq]
  refine splitOn_joinSep _ _ (by simp) ?_
  intro q hq
  simp only [List.mem_cons, List.not_mem_nil, or_false] at hq
  rcases hq with rfl | rfl | rfl | rfl | rfl | rfl | rfl | rfl | rfl
  · decide
  · exact clean_no_colon _ h1
  · exact clean_no_colon _ h2
  · exact clean_no_colon _ h3
  · exact clean_no_colon _ h4
  · exact clean_no_colon _ h5
  · exact clean_no_colon _ h6
  · exact LocationToString_not_mem _ ':' (Or.inl rfl)
  · exact not_mem_joinSep _ _ _ (by decide) (fun e he => clean_no_colon _ (h9 e he))

theorem readLine_targetLine (st : PState) (p : Puzzle) (hn : p.Target < 2 ^ 32) :
    readLine st (targetLine p) = .ok { st with target := (p.Target : Int) } := by
  have hint : StringToInt (natDigits p.Target) = .ok (p.Target : Int) := by
    have hi : natDigits p.Target = itoa (p.Target : Int) := by
      rw [itoa, if_neg (by omega)]
      simp
    rw [hi]
    exact StringToInt_itoa _ (by omega) (by omega)
  unfold readLine
  rw [if_neg (skip_cond_false (targetLine p) ⟨'t', _, rfl, by decide⟩)]
  simp +decide [splitOn_targetLine, List.headD_cons, getPart_one, ok_bind, hint]

theorem readLine_skyLine (st : PState) (s : Sky) (hs : s.valid = true) :
    readLine st (skyLine s) = .ok { st with sky := st.sky ++ [s] } := by
  unfold readLine
  rw [if_neg (skip_cond_false (skyLine s) ⟨'s', _, rfl, by decide⟩)]
  simp +decide [splitOn_skyLine s hs, List.headD_cons, getPart_one, getPart_two,
    getPart_three, getPart_four, getPart_five, getPart_six, ok_bind]

theorem readLine_descriptionLine (st : PState) (p : Puzzle)
    (h : clean p.Description = true) :
    readLine st (descriptionLine p) = .ok { st with description := p.Description } := by
  unfold readLine
  rw [if_neg (skip_cond_false (descriptionLine p) ⟨'d', _, rfl, by decide⟩)]
  simp +decide [splitOn_descriptionLine p h, List.headD_cons, getPart_one, ok_bind]

theorem readLine_outlineLine (st : PState) (o : Outline) (ho : o.valid = true) :
    readLine st (outlineLine o) = .ok { st with outline := some o } := by
  unfold readLine
  rw [if_neg (skip_cond_false (outlineLine o) ⟨'o', _, rfl, by decide⟩)]
  simp +decide [splitOn_outlineLine o ho, List.headD_cons, getPart_one, getPart_two,
    getPart_three, getPart_four, getPart_five, ok_bind]

theorem readLine_blockLine (st : PState) (b : Block) (hb : b.valid = true) :
    readLine st (blockLine b) = .ok { st with block := st.block ++ [b] } := by
  have hloc :=
    StringToLocation_LocationToString b.Location (block_valid_fields b hb).2.2.2.1
  unfold readLine
  rw [if_neg (skip_cond_false (blockLine b) ⟨'b', _, rfl, by decide⟩)]
  simp +decide [splitOn_blockLine b hb, List.headD_cons, getPart_one, getPart_two,
    getPart_three, getPart_four, getPart_five, getPart_six, getPart_seven, ok_bind,
    hloc]

theorem readLine_goalLine (st : PState) (g : Goal) (hg : g.valid = true) :
    readLine st (goalLine g) = .ok { st with goal := st.goal ++ [g] } := by
  have hloc :=
    StringToLocation_LocationToString g.Location (goal_valid_fields g hg).2.2.2.1
  unfold readLine
  rw [if_neg (skip_cond_false (goalLine g) ⟨'g', _, rfl, by decide⟩)]
  simp +decide [splitOn_goalLine g hg, List.headD_cons, getPart_one, getPart_two,
    getPart_three, getPart_four, getPart_five, getPart_six, getPart_seven, ok_bind,
    hloc]

theorem readLine_portalLine (st : PState) (q : Portal) (hq : q.valid = true) :
    readLine st (portalLine q) = .ok { st with portal := st.portal ++ [q] } := by
  have hv := portal_valid_fields q hq
  have hloc := StringToLocation_LocationToString q.Location hv.2.2.2.1
  have hlink := StringToLocation_LocationToString q.Link hv.2.2.2.2.1
  unfold readLine
  rw [if_neg (skip_cond_false (portalLine q) ⟨'p', _, rfl, by decide⟩)]
  simp +decide [splitOn_portalLine q hq, List.headD_cons, getPart_one, getPart_two,
    getPart_three, getPart_four, getPart_five, getPart_six, getPart_seven,
    getPart_eight, ok_bind, hloc, hlink]

theorem readLine_sphereLine (st : PState) (s : Sphere) (hs : s.valid = true) :
    readLine st (sphereLine s) = .ok { st with sphere := st.sphere ++ [s] } := by
  have hloc :=
    StringToLocation_LocationToString s.Location (sphere_valid_fields s hs).2.2.2.1
  unfold readLine
  rw [if_neg (skip_cond_false (sphereLine s) ⟨'s', _, rfl, by decide⟩)]
  simp +decide [splitOn_sphereLine s hs, List.headD_cons, getPart_one, getPart_two,
    getPart_three, getPart_four, getPart_five, getPart_six, getPart_seven, ok_bind,
    hloc]

theorem readLine_sceneryLine (st : PState) (s : Scenery) (hs : s.valid = true) :
    readLine st (sceneryLine s) = .ok { st with scenery := st.scenery ++ [s] } := by
  have hloc :=
    StringToLocation_LocationToString s.Location (scenery_valid_fields s hs).2.2.2.1
  unfold readLine
  rw [if_neg (skip_cond_false (sceneryLine s) ⟨'s', _, rfl, by decide⟩)]
  simp +decide [splitOn_sceneryLine s hs, List.headD_cons, getPart_one, getPart_two,
    getPart_three, getPart_four, getPart_five, getPart_six, getPart_seven, ok_bind,
    hloc]

theorem readLine_dialogLine (st : PState) (d : Dialog) (hd : d.valid = true) :
    readLine st (dialogLine d) = .ok { st with dialog := st.dialog ++ [d] } := by
  have hv := dialog_valid_fields d hd
  have hloc := StringToLocation_LocationToString d.Location hv.2.2.2.2.2.2.1
  have helems : splitOn ',' (joinSep ',' d.Element) = d.Element :=
    splitOn_joinSep ',' d.Element hv.2.2.2.2.2.2.2.1
      (fun e he => clean_no_comma e (hv.2.2.2.2.2.2.2.2 e he))
  unfold readLine
  rw [if_neg (skip_cond_false (dialogLine d) ⟨'d', _, rfl, by decide⟩)]
  simp +decide [splitOn_dialogLine d hd, List.headD_cons, getPart_one, getPart_two,
    getPart_three, getPart_four, getPart_five, getPart_six, getPart_seven,
    getPart_eight, ok_bind, hloc, helems]

theorem runLines_append_ok (st st2 : PState) (l1 l2 : List (List Char))
    (h : runLines st l1 = .ok st2) :
    runLines st (l1 ++ l2) = runLines st2 l2 := by
  induction l1 generalizing st with
  | nil =>
    rw [runLines] at h
    obtain rfl : st = st2 := by injection h
    rfl
  | cons l t ih =>
    rw [List.cons_append, runLines]
    rw [runLines] at h
    cases hr : readLine st l with
    | error e =>
      rw [hr] at h
      simp at h
    | ok st3 =>
      rw [hr] at h
      exact ih st3 h

theorem runLines_skys (ss : List Sky) (h : ∀ x ∈ ss, x.valid = true) :
    ∀ st : PState, runLines st (ss.map skyLine) = .ok { st with sky := st.sky ++ ss } := by
  induction ss with
  | nil =>
    intro st
    simp [runLines]
  | cons x t ih =>
    intro st
    rw [List.map_cons, runLines, readLine_skyLine st x (h x (by simp))]
    show runLines { st with sky := st.sky ++ [x] } (t.map skyLine) =
      .ok { st with sky := st.sky ++ x :: t }
    rw [ih (fun y hy => h y (by simp [hy]))]
    simp

theorem runLines_blocks (bs : List Block) (h : ∀ x ∈ bs, x.valid = true) :
    ∀ st : PState,
      runLines st (bs.map blockLine) = .ok { st with block := st.block ++ bs } := by
  induction bs with
  | nil =>
    intro st
    simp [runLines]
  | cons x t ih =>
    intro st
    rw [List.map_cons, runLines, readLine_blockLine st x (h x (by simp))]
    show runLines { st with block := st.block ++ [x] } (t.map blockLine) =
      .ok { st with block := st.block ++ x :: t }
    rw [ih (fun y hy => h y (by simp [hy]))]
    simp

theorem runLines_goals (gs : List Goal) (h : ∀ x ∈ gs, x.valid = true) :
    ∀ st : PState,
      runLines st (gs.map goalLine) = .ok { st with goal := st.goal ++ gs } := by
  induction gs with
  | nil =>
    intro st
    simp [runLines]
  | cons x t ih =>
    intro st
    rw [List.map_cons, runLines, readLine_goalLine st x (h x (by simp))]
    show runLines { st with goal := st.goal ++ [x] } (t.map goalLine) =
      .ok { st with goal := st.goal ++ x :: t }
    rw [ih (fun y hy => h y (by simp [hy]))]
    simp

theorem runLines_portals (qs : List Portal) (h : ∀ x ∈ qs, x.valid = true) :
    ∀ st : PState,
      runLines st (qs.map portalLine) = .ok { st with portal := st.portal ++ qs } := by
  induction qs with
  | nil =>
    intro st
    simp [runLines]
  | cons x t ih =>
    intro st
    rw [List.map_cons, runLines, readLine_portalLine st x (h x (by simp))]
    show runLines { st with portal := st.portal ++ [x] } (t.map portalLine) =
      .ok { st with portal := st.portal ++ x :: t }
    rw [ih (fun y hy => h y (by simp [hy]))]
    simp

theorem runLines_spheres (ss : List Sphere) (h : ∀ x ∈ ss, x.valid = true) :
    ∀ st : PState,
      runLines st (ss.map sphereLine) = .ok { st with sphere := st.sphere ++ ss } := by
  induction ss with
  | nil =>
    intro st
    simp [runLines]
  | cons x t ih =>
    intro st
    rw [List.map_cons, runLines, readLine_sphereLine st x (h x (by simp))]
    show runLines { st with sphere := st.sphere ++ [x] } (t.map sphereLine) =
      .ok { st with sphere := st.sphere ++ x :: t }
    rw [ih (fun y hy => h y (by simp [hy]))]
    simp

theorem runLines_sceneries (ss : List Scenery) (h : ∀ x ∈ ss, x.valid = true) :
    ∀ st : PState,
      runLines st (ss.map sceneryLine) =
        .ok { st with scenery := st.scenery ++ ss } := by
  induction ss with
  | nil =>
    intro st
    simp [runLines]
  | cons x t ih =>
    intro st
    rw [List.map_cons, runLines, readLine_sceneryLine st x (h x (by simp))]
    show runLines { st with scenery := st.scenery ++ [x] } (t.map sceneryLine) =
      .ok { st with scenery := st.scenery ++ x :: t }
    rw [ih (fun y hy => h y (by simp [hy]))]
    simp

theorem runLines_dialogs (ds : List Dialog) (h : ∀ x ∈ ds, x.valid = true) :
    ∀ st : PState,
      runLines st (ds.map dialogLine) = .ok { st with dialog := st.dialog ++ ds } := by
  induction ds with
  | nil =>
    intro st
    simp [runLines]
  | cons x t ih =>
    intro st
    rw [List.map_cons, runLines, readLine_dialogLine st x (h x (by simp))]
    show runLines { st with dialog := st.dialog ++ [x] } (t.map dialogLine) =
      .ok { st with dialog := st.dialog ++ x :: t }
    rw [ih (fun y hy => h y (by simp [hy]))]
    simp

theorem runLines_outlineSeg (o? : Option Outline)
    (h : ∀ o, o? = some o → o.valid = true)
    (st : PState) (hst : st.outline = none) :
    runLines st (outlineLines o?) = .ok { st with outline := o? } := by
  unfold outlineLines
  cases o? with
  | none =>
    obtain ⟨o1, s1, b1, g1, q1, sp1, d1, t1, sc1, dl1⟩ := st
    have ho1 : o1 = none := hst
    subst ho1
    rfl
  | some o =>
    show runLines st [outlineLine o] = .ok { st with outline := some o }
    rw [runLines, readLine_outlineLine st o (h o rfl)]
    rfl

theorem runLines_descSeg (p : Puzzle) (h : clean p.Description = true) (st : PState)
    (hst : st.description = []) :
    runLines st (descLines p) = .ok { st with description := p.Description } := by
  unfold descLines
  by_cases hd : p.Description = []
  · rw [if_pos hd, hd, ← hst]
    rfl
  · rw [if_neg hd, runLines, readLine_descriptionLine st p h]
    rfl

theorem puzzle_valid_fields (p : Puzzle) (h : p.valid = true) :
    (∀ o, p.Outline = some o → o.valid = true) ∧
      (∀ x ∈ p.Sky, x.valid = true) ∧ (∀ x ∈ p.Block, x.valid = true) ∧
      (∀ x ∈ p.Goal, x.valid = true) ∧ (∀ x ∈ p.Portal, x.valid = true) ∧
      (∀ x ∈ p.Sphere, x.valid = true) ∧ clean p.Description = true ∧
      p.Target < 2 ^ 32 ∧ (∀ x ∈ p.Scenery, x.valid = true) ∧
      (∀ x ∈ p.Dialog, x.valid = true) := by
  simp only [Puzzle.valid, Bool.and_eq_true, List.all_eq_true, decide_eq_true_eq] at h
  obtain ⟨⟨⟨⟨⟨⟨⟨⟨⟨hO, hS⟩, hB⟩, hG⟩, hP⟩, hSp⟩, hD⟩, hT⟩, hSc⟩, hDl⟩ := h
  refine ⟨?_, hS, hB, hG, hP, hSp, hD, hT, hSc, hDl⟩
  intro o hoe
  rw [hoe] at hO
  exact hO

theorem toUInt32_natCast (n : Nat) (h : n < 2 ^ 32) : toUInt32 (n : Int) = n := by
  unfold toUInt32
  omega

theorem targetLine_no_nlcr (p : Puzzle) (c : Char) (hc : c = '\n' ∨ c = '\r') :
    c ∉ targetLine p := by
  rw [targetLine_eq]
  refine not_mem_joinSep _ _ _ (by rcases hc with rfl | rfl <;> decide) ?_
  intro q hq
  simp only [List.mem_cons, List.not_mem_nil, or_false] at hq
  rcases hq with rfl | rfl
  · rcases hc with rfl | rfl <;> decide
  · exact natDigits_not_mem _ c (by tauto)

theorem descriptionLine_no_nlcr (p : Puzzle) (h : clean p.Description = true)
    (c : Char) (hc : c = '\n' ∨ c = '\r') : c ∉ descriptionLine p := by
  rw [descriptionLine_eq]
  refine not_mem_joinSep _ _ _ (by rcases hc with rfl | rfl <;> decide) ?_
  intro q hq
  simp only [List.mem_cons, List.not_mem_nil, or_false] at hq
  rcases hq with rfl | rfl
  · rcases hc with rfl | rfl <;> decide
  · exact clean_no_nlcr _ h c hc

theorem outlineLine_no_nlcr (o : Outline) (h : o.valid = true) (c : Char)
    (hc : c = '\n' ∨ c = '\r') : c ∉ outlineLine o := by
  obtain ⟨h1, h2, h3, h4, h5⟩ := outline_valid_fields o h
  rw [outlineLine_eq]
  refine not_mem_joinSep _ _ _ (by rcases hc with rfl | rfl <;> decide) ?_
  intro q hq
  simp only [List.mem_cons, List.not_mem_nil, or_false] at hq
  rcases hq with rfl | rfl | rfl | rfl | rfl | rfl
  · rcases hc with rfl | rfl <;> decide
  · exact clean_no_nlcr _ h1 c hc
  · exact clean_no_nlcr _ h2 c hc
  · exact clean_no_nlcr _ h3 c hc
  · exact clean_no_nlcr _ h4 c hc
  · exact clean_no_nlcr _ h5 c hc

theorem skyLine_no_nlcr (s : Sky) (h : s.valid = true) (c : Char)
    (hc : c = '\n' ∨ c = '\r') : c ∉ skyLine s := by
  obtain ⟨h1, h2, h3, h4, h5, h6⟩ := sky_valid_fields s h
  rw [skyLine_eq]
  refine not_mem_joinSep _ _ _ (by rcases hc with rfl | rfl <;> decide) ?_
  intro q hq
  simp only [List.mem_cons, List.not_mem_nil, or_false] at hq
  rcases hq with rfl | rfl | rfl | rfl | rfl | rfl | rfl
  · rcases hc with rfl | rfl <;> decide
  · exact clean_no_nlcr _ h1 c hc
  · exact clean_no_nlcr _ h2 c hc
  · exact clean_no_nlcr _ h3 c hc
  · exact clean_no_nlcr _ h4 c hc
  · exact clean_no_nlcr _ h5 c hc
  · exact clean_no_nlcr _ h6 c hc

theorem blockLine_no_nlcr (b : Block) (h : b.valid = true) (c : Char)
    (hc : c = '\n' ∨ c = '\r') : c ∉ blockLine b := by
  obtain ⟨h1, h2, h3, _, h5, h6, h7⟩ := block_valid_fields b h
  rw [blockLine_eq]
  refine not_mem_joinSep _ _ _ (by rcases hc with rfl | rfl <;> decide) ?_
  intro q hq
  simp only [List.mem_cons, List.not_mem_nil, or_false] at hq
  rcases hq with rfl | rfl | rfl | rfl | rfl | rfl | rfl | rfl
  · rcases hc with rfl | rfl <;> decide
  · exact clean_no_nlcr _ h1 c hc
  · exact clean_no_nlcr _ h2 c hc
  · exact clean_no_nlcr _ h3 c hc
  · exact LocationToString_not_mem _ c (Or.inr hc)
  · exact clean_no_nlcr _ h5 c hc
  · exact clean_no_nlcr _ h6 c hc
  · exact clean_no_nlcr _ h7 c hc

theorem goalLine_no_nlcr (g : Goal) (h : g.valid = true) (c : Char)
    (hc : c = '\n' ∨ c = '\r') : c ∉ goalLine g := by
  obtain ⟨h1, h2, h3, _, h5, h6, h7⟩ := goal_valid_fields g h
  rw [goalLine_eq]
  refine not_mem_joinSep _ _ _ (by rcases hc with rfl | rfl <;> decide) ?_
  intro q hq
  simp only [List.mem_cons, List.not_mem_nil, or_false] at hq
  rcases hq with rfl | rfl | rfl | rfl | rfl | rfl | rfl | rfl
  · rcases hc with rfl | rfl <;> decide
  · exact clean_no_nlcr _ h1 c hc
  · exact clean_no_nlcr _ h2 c hc
  · exact clean_no_nlcr _ h3 c hc
  · exact LocationToString_not_mem _ c (Or.inr hc)
  · exact clean_no_nlcr _ h5 c hc
  · exact clean_no_nlcr _ h6 c hc
  · exact clean_no_nlcr _ h7 c hc

theorem portalLine_no_nlcr (q : Portal) (h : q.valid = true) (c : Char)
    (hc : c = '\n' ∨ c = '\r') : c ∉ portalLine q := by
  obtain ⟨h1, h2, h3, _, _, h6, h7, h8⟩ := portal_valid_fields q h
  rw [portalLine_eq]
  refine not_mem_joinSep _ _ _ (by rcases hc with rfl | rfl <;> decide) ?_
  intro r hr
  simp only [List.mem_cons, List.not_mem_nil, or_false] at hr
  rcases hr with rfl | rfl | rfl | rfl | rfl | rfl | rfl | rfl | rfl
  · rcases hc with rfl | rfl <;> decide
  · exact clean_no_nlcr _ h1 c hc
  · exact clean_no_nlcr _ h2 c hc
  · exact clean_no_nlcr _ h3 c hc
  · exact LocationToString_not_mem _ c (Or.inr hc)
  · exact LocationToString_not_mem _ c (Or.inr hc)
  · exact clean_no_nlcr _ h6 c hc
  · exact clean_no_nlcr _ h7 c hc
  · exact clean_no_nlcr _ h8 c hc

theorem sphereLine_no_nlcr (s : Sphere) (h : s.valid = true) (c : Char)
    (hc : c = '\n' ∨ c = '\r') : c ∉ sphereLine s := by
  obtain ⟨h1, h2, h3, _, h5, h6, h7⟩ := sphere_valid_fields s h
  rw [sphereLine_eq]
  refine not_mem_joinSep _ _ _ (by rcases hc with rfl | rfl <;> decide) ?_
  intro q hq
  simp only [List.mem_cons, List.not_mem_nil, or_false] at hq
  rcases hq with rfl | rfl | rfl | rfl | rfl | rfl | rfl | rfl
  · rcases hc with rfl | rfl <;> decide
  · exact clean_no_nlcr _ h1 c hc
  · exact clean_no_nlcr _ h2 c hc
  · exact clean_no_nlcr _ h3 c hc
  · exact LocationToString_not_mem _ c (Or.inr hc)
  · exact clean_no_nlcr _ h5 c hc
  · exact clean_no_nlcr _ h6 c hc
  · exact clean_no_nlcr _ h7 c hc

theorem sceneryLine_no_nlcr (s : Scenery) (h : s.valid = true) (c : Char)
    (hc : c = '\n' ∨ c = '\r') : c ∉ sceneryLine s := by
  obtain ⟨h1, h2, h3, _, h5, h6, h7⟩ := scenery_valid_fields s h
  rw [sceneryLine_eq]
  refine not_mem_joinSep _ _ _ (by rcases hc with rfl | rfl <;> decide) ?_
  intro q hq
  simp only [List.mem_cons, List.not_mem_nil, or_false] at hq
  rcases hq with rfl | rfl | rfl | rfl | rfl | rfl | rfl | rfl
  · rcases hc with rfl | rfl <;> decide
  · exact clean_no_nlcr _ h1 c hc
  · exact clean_no_nlcr _ h2 c hc
  · exact clean_no_nlcr _ h3 c hc
  · exact LocationToString_not_mem _ c (Or.inr hc)
  · exact clean_no_nlcr _ h5 c hc
  · exact clean_no_nlcr _ h6 c hc
  · exact clean_no_nlcr _ h7 c hc

theorem dialogLine_no_nlcr (d : Dialog) (h : d.valid = true) (c : Char)
    (hc : c = '\n' ∨ c = '\r') : c ∉ dialogLine d := by
  obtain ⟨h1, h2, h3, h4, h5, h6, _, _, h9⟩ := dialog_valid_fields d h
  rw [dialogLine_eq]
  refine not_mem_joinSep _ _ _ (by rcases hc with rfl | rfl <;> decide) ?_
  intro q hq
  simp only [List.mem_cons, List.not_mem_nil, or_false] at hq
  rcases hq with rfl | rfl | rfl | rfl | rfl | rfl | rfl | rfl | rfl
  · rcases hc with rfl | rfl <;> decide
  · exact clean_no_nlcr _ h1 c hc
  · exact clean_no_nlcr _ h2 c hc
  · exact clean_no_nlcr _ h3 c hc
  · exact clean_no_nlcr _ h4 c hc
  · exact clean_no_nlcr _ h5 c hc
  · exact clean_no_nlcr _ h6 c hc
  · exact LocationToString_not_mem _ c (Or.inr hc)
  · exact not_mem_joinSep _ _ _ (by rcases hc with rfl | rfl <;> decide)
      (fun e he => clean_no_nlcr _ (h9 e he) c hc)

theorem mem_outlineSeg (o? : Option Outline) (l : List Char)
    (h : l ∈ outlineLines o?) :
    ∃ o, o? = some o ∧ l = outlineLine o := by
  unfold outlineLines at h
  cases o? <;> simp_all

theorem mem_descSeg (p : Puzzle) (l : List Char)
    (h : l ∈ descLines p) :
    l = descriptionLine p := by
  unfold descLines at h
  split at h <;> simp_all

theorem allLines_clean (p : Puzzle) (hp : p.valid = true) :
    ∀ l ∈ allLines p, '\n' ∉ l ∧ '\r' ∉ l := by
  obtain ⟨ho, hsky, hblock, hgoal, hportal, hsphere, hdesc, _, hscenery, hdialog⟩ :=
    puzzle_valid_fields p hp
  intro l hl
  suffices hs : ∀ c, (c = '\n' ∨ c = '\r') → c ∉ l by
    exact ⟨hs '\n' (Or.inl rfl), hs '\r' (Or.inr rfl)⟩
  intro c hc
  unfold allLines at hl
  simp only [List.mem_append, List.mem_cons, List.not_mem_nil, or_false,
    List.mem_map] at hl
  rcases hl with ((((((((rfl | hl) | ⟨x, hx, rfl⟩) | hl) | ⟨x, hx, rfl⟩) |
      ⟨x, hx, rfl⟩) | ⟨x, hx, rfl⟩) | ⟨x, hx, rfl⟩) | ⟨x, hx, rfl⟩) | ⟨x, hx, rfl⟩
  · exact targetLine_no_nlcr p c hc
  · obtain ⟨o, hoe, rfl⟩ := mem_outlineSeg p.Outline l hl
    exact outlineLine_no_nlcr o (ho o hoe) c hc
  · exact skyLine_no_nlcr x (hsky x hx) c hc
  · rw [mem_descSeg p l hl]
    exact descriptionLine_no_nlcr p hdesc c hc
  · exact blockLine_no_nlcr x (hblock x hx) c hc
  · exact goalLine_no_nlcr x (hgoal x hx) c hc
  · exact portalLine_no_nlcr x (hportal x hx) c hc
  · exact sphereLine_no_nlcr x (hsphere x hx) c hc
  · exact sceneryLine_no_nlcr x (hscenery x hx) c hc
  · exact dialogLine_no_nlcr x (hdialog x hx) c hc

/-- The amended round trip: decoding the text `WritePuzzle` produces
reconstructs every field of a valid puzzle, including the insertion
order of every per-kind sequence. -/
theorem roundtrip_valid (p : Puzzle) (hp : p.valid = true) :
    ReadPuzzle (WritePuzzle p) = .ok p := by
  obtain ⟨ho, hsky, hblock, hgoal, hportal, hsphere, hdesc, htarget, hscenery,
    hdialog⟩ := puzzle_valid_fields p hp
  have hlines : scanLines (WritePuzzle p) = allLines p := by
    rw [WritePuzzle_eq_unlines]
    exact scanLines_unlines _ (allLines_clean p hp)
  have h1 : runLines initState [targetLine p] =
      .ok ⟨none, [], [], [], [], [], [], (p.Target : Int), [], []⟩ := by
    rw [runLines, readLine_targetLine initState p htarget]
    rfl
  have h2 : runLines initState ([targetLine p] ++
      outlineLines p.Outline) =
      .ok ⟨p.Outline, [], [], [], [], [], [], (p.Target : Int), [], []⟩ := by
    rw [runLines_append_ok _ _ _ _ h1]
    exact runLines_outlineSeg p.Outline ho
      ⟨none, [], [], [], [], [], [], (p.Target : Int), [], []⟩ rfl
  have h3 : runLines initState ([targetLine p] ++
      outlineLines p.Outline ++ p.Sky.map skyLine) =
      .ok ⟨p.Outline, p.Sky, [], [], [], [], [], (p.Target : Int), [], []⟩ := by
    rw [runLines_append_ok _ _ _ _ h2]
    exact runLines_skys p.Sky hsky _
  have h4 : runLines initState ([targetLine p] ++
      outlineLines p.Outline ++ p.Sky.map skyLine ++
      descLines p) =
      .ok ⟨p.Outline, p.Sky, [], [], [], [], p.Description, (p.Target : Int),
        [], []⟩ := by
    rw [runLines_append_ok _ _ _ _ h3]
    exact runLines_descSeg p hdesc
      ⟨p.Outline, p.Sky, [], [], [], [], [], (p.Target : Int), [], []⟩ rfl
  have h5 : runLines initState ([targetLine p] ++
      outlineLines p.Outline ++ p.Sky.map skyLine ++
      descLines p ++
      p.Block.map blockLine) =
      .ok ⟨p.Outline, p.Sky, p.Block, [], [], [], p.Description, (p.Target : Int),
        [], []⟩ := by
    rw [runLines_append_ok _ _ _ _ h4]
    exact runLines_blocks p.Block hblock _
  have h6 : runLines initState ([targetLine p] ++
      outlineLines p.Outline ++ p.Sky.map skyLine ++
      descLines p ++
      p.Block.map blockLine ++ p.Goal.map goalLine) =
      .ok ⟨p.Outline, p.Sky, p.Block, p.Goal, [], [], p.Description,
        (p.Target : Int), [], []⟩ := by
    rw [runLines_append_ok _ _ _ _ h5]
    exact runLines_goals p.Goal hgoal _
  have h7 : runLines initState ([targetLine p] ++
      outlineLines p.Outline ++ p.Sky.map skyLine ++
      descLines p ++
      p.Block.map blockLine ++ p.Goal.map goalLine ++ p.Portal.map portalLine) =
      .ok ⟨p.Outline, p.Sky, p.Block, p.Goal, p.Portal, [], p.Description,
        (p.Target : Int), [], []⟩ := by
    rw [runLines_append_ok _ _ _ _ h6]
    exact runLines_portals p.Portal hportal _
  have h8 : runLines initState ([targetLine p] ++
      outlineLines p.Outline ++ p.Sky.map skyLine ++
      descLines p ++
      p.Block.map blockLine ++ p.Goal.map goalLine ++ p.Portal.map portalLine ++
      p.Sphere.map sphereLine) =
      .ok ⟨p.Outline, p.Sky, p.Block, p.Goal, p.Portal, p.Sphere, p.Description,
        (p.Target : Int), [], []⟩ := by
    rw [runLines_append_ok _ _ _ _ h7]
    exact runLines_spheres p.Sphere hsphere _
  have h9 : runLines initState ([targetLine p] ++
      outlineLines p.Outline ++ p.Sky.map skyLine ++
      descLines p ++
      p.Block.map blockLine ++ p.Goal.map goalLine ++ p.Portal.map portalLine ++
      p.Sphere.map sphereLine ++ p.Scenery.map sceneryLine) =
      .ok ⟨p.Outline, p.Sky, p.Block, p.Goal, p.Portal, p.Sphere, p.Description,
        (p.Target : Int), p.Scenery, []⟩ := by
    rw [runLines_append_ok _ _ _ _ h8]
    exact runLines_sceneries p.Scenery hscenery _
  have h10 : runLines initState (allLines p) =
      .ok ⟨p.Outline, p.Sky, p.Block, p.Goal, p.Portal, p.Sphere, p.Description,
        (p.Target : Int), p.Scenery, p.Dialog⟩ := by
    show runLines initState ([targetLine p] ++
      outlineLines p.Outline ++ p.Sky.map skyLine ++
      descLines p ++
      p.Block.map blockLine ++ p.Goal.map goalLine ++ p.Portal.map portalLine ++
      p.Sphere.map sphereLine ++ p.Scenery.map sceneryLine ++
      p.Dialog.map dialogLine) = _
    rw [runLines_append_ok _ _ _ _ h9]
    exact runLines_dialogs p.Dialog hdialog _
  unfold ReadPuzzle
  rw [hlines, h10]
  show Except.ok (buildPuzzle ⟨p.Outline, p.Sky, p.Block, p.Goal, p.Portal,
    p.Sphere, p.Description, (p.Target : Int), p.Scenery, p.Dialog⟩) = .ok p
  unfold buildPuzzle
  rw [toUInt32_natCast p.Target htarget]

theorem bind_eq_error {α β : Type} (x : Except GoErr α) (f : α → Except GoErr β)
    (e : GoErr) :
    (x >>= f) = .error e ↔ x = .error e ∨ ∃ a, x = .ok a ∧ f a = .error e := by
  cases x with
  | error e2 => simp [Bind.bind, Except.bind]
  | ok a => simp [Bind.bind, Except.bind]

theorem getPart_ne_returned (ps : List (List Char)) (i : Nat) (m : List Char) :
    getPart ps i = .error (.returned m) ↔ False := by
  simp only [iff_false]
  induction ps generalizing i with
  | nil => simp [getPart]
  | cons x xs ih =>
    cases i with
    | zero => simp [getPart]
    | succ n => exact ih n

theorem StringToInt_ne_returned (s : List Char) (m : List Char) :
    StringToInt s = .error (.returned m) ↔ False := by
  simp only [iff_false]
  unfold StringToInt
  cases Atoi s <;> simp

theorem StringToLocation_ne_returned (s : List Char) (m : List Char) :
    StringToLocation s = .error (.returned m) ↔ False := by
  simp only [iff_false]
  unfold StringToLocation
  split
  · simp [bind_eq_error, StringToInt_ne_returned, pure, Except.pure]
  · simp [bind_eq_error, StringToInt_ne_returned, pure, Except.pure]
  · simp [bind_eq_error, StringToInt_ne_returned, pure, Except.pure]
  · simp [bind_eq_error, StringToInt_ne_returned, pure, Except.pure]
  · simp

theorem ok_ne_error {α : Type} (a : α) (e : GoErr) :
    (Except.ok a = Except.error e) ↔ False := by
  simp

theorem readLine_no_returned (st : PState) (l m : List Char) :
    readLine st l ≠ .error (.returned m) := by
  unfold readLine
  intro h
  by_cases h0 : (l = [] ∨ ['#'].isPrefixOf l = true)
  · rw [if_pos h0] at h
    simp at h
  · rw [if_neg h0] at h
    dsimp only at h
    by_cases h1 : (splitOn ':' l).headD [] = chars "description"
    · rw [if_pos h1] at h
      simp only [bind_eq_error, getPart_ne_returned, StringToInt_ne_returned,
        StringToLocation_ne_returned, pure, Except.pure, ok_ne_error, false_and,
        and_false, false_or, or_false, exists_false] at h
    · rw [if_neg h1] at h
      by_cases h2 : (splitOn ':' l).headD [] = chars "target"
      · rw [if_pos h2] at h
        simp only [bind_eq_error, getPart_ne_returned, StringToInt_ne_returned,
        StringToLocation_ne_returned, pure, Except.pure, ok_ne_error, false_and,
        and_false, false_or, or_false, exists_false] at h
      · rw [if_neg h2] at h
        by_cases h3 : (splitOn ':' l).headD [] = chars "outline"
        · rw [if_pos h3] at h
          simp only [bind_eq_error, getPart_ne_returned, StringToInt_ne_returned,
        StringToLocation_ne_returned, pure, Except.pure, ok_ne_error, false_and,
        and_false, false_or, or_false, exists_false] at h
        · rw [if_neg h3] at h
          by_cases h4 : (splitOn ':' l).headD [] = chars "sky"
          · rw [if_pos h4] at h
            simp only [bind_eq_error, getPart_ne_returned, StringToInt_ne_returned,
        StringToLocation_ne_returned, pure, Except.pure, ok_ne_error, false_and,
        and_false, false_or, or_false, exists_false] at h
          · rw [if_neg h4] at h
            by_cases h5 : (splitOn ':' l).headD [] = chars "block"
            · rw [if_pos h5] at h
              simp only [bind_eq_error, getPart_ne_returned, StringToInt_ne_returned,
        StringToLocation_ne_returned, pure, Except.pure, ok_ne_error, false_and,
        and_false, false_or, or_false, exists_false] at h
            · rw [if_neg h5] at h
              by_cases h6 : (splitOn ':' l).headD [] = chars "goal"
              · rw [if_pos h6] at h
                simp only [bind_eq_error, getPart_ne_returned, StringToInt_ne_returned,
        StringToLocation_ne_returned, pure, Except.pure, ok_ne_error, false_and,
        and_false, false_or, or_false, exists_false] at h
              · rw [if_neg h6] at h
                by_cases h7 : (splitOn ':' l).headD [] = chars "portal"
                · rw [if_pos h7] at h
                  simp only [bind_eq_error, getPart_ne_returned, StringToInt_ne_returned,
        StringToLocation_ne_returned, pure, Except.pure, ok_ne_error, false_and,
        and_false, false_or, or_false, exists_false] at h
                · rw [if_neg h7] at h
                  by_cases h8 : (splitOn ':' l).headD [] = chars "sphere"
                  · rw [if_pos h8] at h
                    simp only [bind_eq_error, getPart_ne_returned, StringToInt_ne_returned,
        StringToLocation_ne_returned, pure, Except.pure, ok_ne_error, false_and,
        and_false, false_or, or_false, exists_false] at h
                  · rw [if_neg h8] at h
                    by_cases h9 : (splitOn ':' l).headD [] = chars "scenery"
                    · rw [if_pos h9] at h
                      simp only [bind_eq_error, getPart_ne_returned, StringToInt_ne_returned,
        StringToLocation_ne_returned, pure, Except.pure, ok_ne_error, false_and,
        and_false, false_or, or_false, exists_false] at h
                    · rw [if_neg h9] at h
                      by_cases h10 : (splitOn ':' l).headD [] = chars "dialog"
                      · rw [if_pos h10] at h
                        simp only [bind_eq_error, getPart_ne_returned, StringToInt_ne_returned,
        StringToLocation_ne_returned, pure, Except.pure, ok_ne_error, false_and,
        and_false, false_or, or_false, exists_false] at h
                      · rw [if_neg h10] at h
                        simp at h

theorem runLines_no_returned (ls : List (List Char)) :
    ∀ (st : PState) (m : List Char), runLines st ls ≠ .error (.returned m) := by
  induction ls with
  | nil =>
    intro st m
    simp [runLines]
  | cons l t ih =>
    intro st m
    rw [runLines]
    cases hr : readLine st l with
    | error e =>
      intro h
      have he : e = .returned m := by simpa using h
      exact readLine_no_returned st l m (by rw [hr, he])
    | ok st2 => exact ih st2 m

theorem ReadPuzzle_no_returned (input : List Char) (m : List Char) :
    ReadPuzzle input ≠ .error (.returned m) := by
  unfold ReadPuzzle
  cases hr : runLines initState (scanLines input) with
  | error e =>
    intro h
    have he : e = .returned m := by simpa using h
    exact runLines_no_returned _ initState m (by rw [hr, he])
  | ok st => simp

/-- C1 (counterexample): the round-trip claim as stated is false — the
puzzle `badPuzzle` satisfies the claim's validity premise (no embedded
':' or ',' in free-text fields), yet decoding its encoding does not
reproduce it, because the newline inside its description starts a new
line of text. -/
theorem c1_roundtrip_counterexample :
    Puzzle.noDelim badPuzzle = true ∧
      ReadPuzzle (WritePuzzle badPuzzle) ≠ .ok badPuzzle := by
  constructor
  · decide
  · decide

/-- C1 (amended): for every puzzle whose free-text fields contain no
':', ',', newline or carriage return, whose dialog element lists are
non-empty, and whose numeric fields are within their Go integer ranges,
decoding the text produced by `WritePuzzle` with `ReadPuzzle` yields a
puzzle whose fields equal the original's exactly, including the
insertion order of every per-kind sequence. -/
theorem c1_roundtrip (p : Puzzle) (hp : p.valid = true) :
    ReadPuzzle (WritePuzzle p) = .ok p :=
  roundtrip_valid p hp

/-- C1 (witness): the round trip at a concrete fully populated
puzzle. -/
theorem c1_roundtrip_witness :
    samplePuzzle.valid = true ∧ ReadPuzzle (WritePuzzle samplePuzzle) = .ok samplePuzzle :=
  ⟨by decide, c1_roundtrip samplePuzzle (by decide)⟩

/-- C2 (counterexample): on the one-byte buffer `[1]` the varint
decodes to size 1 consuming 1 byte, so the decoded size exceeds the
zero bytes available after the prefix — yet with the 512-byte capacity
slack a `ReadAll` buffer carries, `ReadWorldFile` does not fail with
the framing decode error: the slice silently reads one byte of zero
padding and the caller sees `proto.Unmarshal`'s verdict on it (a
success in the opaque-blob model; the real unmarshaller returns an
illegal-tag payload error — either way, not the claimed framing
error). -/
theorem c2_framing_counterexample :
    (decodeVarint [1]).1 = 1 ∧ (decodeVarint [1]).2 = 1 ∧
      ([1] : List Nat).length < (decodeVarint [1]).2 + (decodeVarint [1]).1 ∧
      readWorldBuffer [1] 512 = .ok ⟨[0]⟩ ∧
      readWorldBuffer [1] 512 ≠ .error (.returned (chars "Could not read size")) :=
  ⟨by decide, by decide, by decide, by decide, by decide⟩

theorem decodeVarintLoop_le_length :
    ∀ (fuel : Nat) (buf : List Nat) (shift x n : Nat),
      (decodeVarintLoop buf fuel shift x n).2 ≤ n + buf.length := by
  intro fuel
  induction fuel with
  | zero =>
    intro buf shift x n
    simp [decodeVarintLoop]
  | succ fuel ih =>
    intro buf shift x n
    cases buf with
    | nil => simp [decodeVarintLoop]
    | cons b rest =>
      rw [decodeVarintLoop]
      split
      · simp
      · have h2 := ih rest (shift + 7) ((x ||| (b % 256 % 128) <<< shift) % 2 ^ 64) (n + 1)
        simp only [List.length_cons]
        omega

theorem decodeVarint_le_length (buf : List Nat) : (decodeVarint buf).2 ≤ buf.length := by
  have h := decodeVarintLoop_le_length 10 buf 0 0 0
  simpa using h

/-- C2 (amended): `ReadWorldFile` fails with its framing decode error
in exactly one case — the varint length prefix cannot be decoded (zero
bytes consumed).  A decoded size exceeding the bytes available after
the varint is *not* turned into a framing error: while the excess
stays within the `ReadAll` buffer's capacity slack, the unchecked
slice silently reads zero padding and the caller sees whatever
`proto.Unmarshal` makes of the padded bytes — a returned
payload-decode outcome, never the framing error and never a crash;
only a size exceeding even the capacity panics. -/
theorem c2_framing (buf : List Nat) (slack : Nat) :
    ReadWorldFile (.ok buf) slack = readWorldBuffer buf slack ∧
    (readWorldBuffer buf slack = .error (.returned (chars "Could not read size")) ↔
      (decodeVarint buf).2 = 0) ∧
    ((decodeVarint buf).2 ≠ 0 →
      buf.length < (decodeVarint buf).2 + (decodeVarint buf).1 →
      (decodeVarint buf).2 + (decodeVarint buf).1 ≤ buf.length + slack →
      readWorldBuffer buf slack =
        (match protoUnmarshal (buf.drop (decodeVarint buf).2 ++
            List.replicate
              ((decodeVarint buf).2 + (decodeVarint buf).1 - buf.length) 0) with
         | .error e => .error (.returned e)
         | .ok w => .ok w) ∧
      (∀ m, readWorldBuffer buf slack ≠ .error (.panic m))) ∧
    ((decodeVarint buf).2 ≠ 0 →
      buf.length + slack < (decodeVarint buf).2 + (decodeVarint buf).1 →
      readWorldBuffer buf slack =
        .error (.panic (chars "slice bounds out of range"))) := by
  refine ⟨rfl, ?_⟩
  have hle : (decodeVarint buf).2 ≤ buf.length := decodeVarint_le_length buf
  unfold readWorldBuffer
  by_cases hs : (decodeVarint buf).2 ≤ 0
  · rw [if_pos hs]
    exact ⟨⟨fun _ => by omega, fun _ => rfl⟩,
      fun h1 _ _ => absurd (by omega) h1, fun h1 _ => absurd (by omega) h1⟩
  · rw [if_neg hs]
    by_cases hb : (decodeVarint buf).2 + (decodeVarint buf).1 ≤ buf.length + slack
    · have hsl : sliceCap buf slack (decodeVarint buf).2
          ((decodeVarint buf).2 + (decodeVarint buf).1) =
          .ok (((buf ++ List.replicate slack 0).drop (decodeVarint buf).2).take
            ((decodeVarint buf).2 + (decodeVarint buf).1 - (decodeVarint buf).2)) := by
        unfold sliceCap
        rw [if_pos ⟨by omega, hb⟩]
      rw [hsl]
      refine ⟨⟨fun h => by simp [protoUnmarshal] at h, fun h0 => absurd h0 (by omega)⟩,
        ?_, fun h1 h2 => absurd hb (by omega)⟩
      intro h1 h2 h3
      have hpay : ((buf ++ List.replicate slack 0).drop (decodeVarint buf).2).take
            ((decodeVarint buf).2 + (decodeVarint buf).1 - (decodeVarint buf).2) =
          buf.drop (decodeVarint buf).2 ++
            List.replicate
              ((decodeVarint buf).2 + (decodeVarint buf).1 - buf.length) 0 := by
        rw [Nat.add_sub_cancel_left, List.drop_append_of_le_length hle,
          List.take_append_eq_append_take,
          List.take_of_length_le (by simp only [List.length_drop]; omega)]
        have h5 : (List.replicate slack (0 : Nat)).take
              ((decodeVarint buf).1 - (buf.drop (decodeVarint buf).2).length) =
            List.replicate
              ((decodeVarint buf).2 + (decodeVarint buf).1 - buf.length) 0 := by
          rw [List.take_replicate]
          congr 1
          simp only [List.length_drop]
          omega
        rw [h5]
      rw [hpay]
      exact ⟨rfl, fun m => by simp [protoUnmarshal]⟩
    · have hsl : sliceCap buf slack (decodeVarint buf).2
          ((decodeVarint buf).2 + (decodeVarint buf).1) =
          .error (.panic (chars "slice bounds out of range")) := by
        unfold sliceCap
        rw [if_neg (fun hc => absurd hc.2 (by omega))]
      rw [hsl]
      exact ⟨⟨fun h => by simp at h, fun h0 => absurd h0 (by omega)⟩,
        fun h1 h2 h3 => absurd h3 (by omega), fun _ _ => rfl⟩

/-- C2 (witness): the empty buffer yields the framing error; on
`[200, 10]` the varint declares 1352 payload bytes, beyond the length
plus the 512-byte capacity slack, which panics; and on `[1]` (size 1,
nothing available, but within the slack) no panic occurs — the caller
sees an unmarshal outcome, not a framing failure. -/
theorem c2_framing_witness :
    readWorldBuffer [] 512 = .error (.returned (chars "Could not read size")) ∧
      readWorldBuffer [200, 10] 512 =
        .error (.panic (chars "slice bounds out of range")) ∧
      (∀ m, readWorldBuffer [1] 512 ≠ .error (.panic m)) :=
  ⟨(c2_framing [] 512).2.1.mpr (by decide),
   (c2_framing [200, 10] 512).2.2.2 (by decide) (by decide),
   ((c2_framing [1] 512).2.2.1 (by decide) (by decide) (by decide)).2⟩

/-- C3: a non-numeric integer field and a malformed location both drive
`ReadPuzzle` into `log.Fatal` — modelled as the `GoErr.fatal` outcome,
which terminates the host process rather than returning a recoverable
decode error to the caller. -/
theorem c3_fatal_on_parse :
    ReadPuzzle (chars "target:x") = .error (.fatal (chars "invalid syntax")) ∧
      ReadPuzzle (chars "block:b:m:c:1,2,3,4,5:t:u:s") =
        .error (.fatal (chars "Could not parse location")) :=
  ⟨by decide, by decide⟩

/-- C4: `WriteWorld` emits the varint of the payload size followed by
exactly the payload bytes; reading the buffer back — with any trailing
bytes appended and whatever capacity slack the buffer carries — returns
the original world, the trailing bytes silently ignored. -/
theorem c4_world_roundtrip (w : World) (extra : List Nat) (slack : Nat)
    (h : w.bytes.length < 2 ^ 64) :
    WriteWorld w = encodeVarint (protoSize w) ++ protoMarshal w ∧
      (protoMarshal w).length = protoSize w ∧
      decodeVarint (WriteWorld w ++ extra) =
        (protoSize w, (encodeVarint (protoSize w)).length) ∧
      readWorldBuffer (WriteWorld w ++ extra) slack = .ok w ∧
      ReadWorldFile (.ok (WriteWorld w ++ extra)) slack = .ok w := by
  have hdec : decodeVarint (WriteWorld w ++ extra) =
      (protoSize w, (encodeVarint (protoSize w)).length) := by
    rw [WriteWorld, List.append_assoc]
    exact decodeVarint_encodeVarint _ h _
  have hrb : readWorldBuffer (WriteWorld w ++ extra) slack = .ok w := ?_
  refine ⟨rfl, rfl, hdec, hrb, hrb⟩
  unfold readWorldBuffer
  simp only [hdec]
  have hpos : 0 < (encodeVarint (protoSize w)).length :=
    List.length_pos.mpr (encodeVarint_ne_nil _)
  rw [if_neg (by omega)]
  have hbuf : WriteWorld w ++ extra =
      encodeVarint (protoSize w) ++ (w.bytes ++ extra) := by
    rw [WriteWorld]
    simp [protoMarshal, List.append_assoc]
  have hslice : sliceCap (WriteWorld w ++ extra) slack
      (encodeVarint (protoSize w)).length
      ((encodeVarint (protoSize w)).length + protoSize w) = .ok w.bytes := by
    unfold sliceCap
    rw [if_pos ?hc]
    case hc =>
      constructor
      · omega
      · rw [hbuf]
        simp only [List.length_append, protoSize]
        omega
    congr 1
    rw [hbuf, List.append_assoc, List.drop_left, Nat.add_sub_cancel_left,
      List.append_assoc]
    exact List.take_left w.bytes (extra ++ List.replicate slack 0)
  rw [hslice]
  rfl

/-- C4 (witness): round trip of a three-byte world with two trailing
garbage bytes, at the 512-byte capacity slack of a real read. -/
theorem c4_world_roundtrip_witness :
    ReadWorldFile (.ok (WriteWorld ⟨[7, 8, 9]⟩ ++ [4, 5])) 512 = .ok ⟨[7, 8, 9]⟩ :=
  (c4_world_roundtrip ⟨[7, 8, 9]⟩ [4, 5] 512 (by decide)).2.2.2.2

/-- C5: `StringToLocation` splits on ',' and maps field counts 4, 3, 2
and 1 to `(W,X,Y,Z)`, `(0,X,Y,Z)`, `(0,X,Y,0)` and `(0,X,0,0)`; the
claim's own examples hold, and the empty string fails (its single empty
field is not a number — a `log.Fatal` in the code, the fatal outcome in
the model). -/
theorem c5_location_parse :
    (∀ s p0 p1 p2 p3 : List Char, splitOn ',' s = [p0, p1, p2, p3] →
      ∀ w x y z : Int, StringToInt p0 = .ok w → StringToInt p1 = .ok x →
        StringToInt p2 = .ok y → StringToInt p3 = .ok z →
        StringToLocation s = .ok ⟨toInt32 w, toInt32 x, toInt32 y, toInt32 z⟩) ∧
    (∀ s p0 p1 p2 : List Char, splitOn ',' s = [p0, p1, p2] →
      ∀ x y z : Int, StringToInt p0 = .ok x → StringToInt p1 = .ok y →
        StringToInt p2 = .ok z →
        StringToLocation s = .ok ⟨0, toInt32 x, toInt32 y, toInt32 z⟩) ∧
    (∀ s p0 p1 : List Char, splitOn ',' s = [p0, p1] →
      ∀ x y : Int, StringToInt p0 = .ok x → StringToInt p1 = .ok y →
        StringToLocation s = .ok ⟨0, toInt32 x, toInt32 y, 0⟩) ∧
    (∀ s p0 : List Char, splitOn ',' s = [p0] →
      ∀ x : Int, StringToInt p0 = .ok x →
        StringToLocation s = .ok ⟨0, toInt32 x, 0, 0⟩) ∧
    StringToLocation (chars "1,2,3") = .ok ⟨0, 1, 2, 3⟩ ∧
    StringToLocation (chars "5,1,2,3") = .ok ⟨5, 1, 2, 3⟩ ∧
    StringToLocation (chars "") = .error (.fatal (chars "invalid syntax")) := by
  have hz : toInt32 0 = 0 := by decide
  refine ⟨?_, ?_, ?_, ?_, by decide, by decide, by decide⟩
  · intro s p0 p1 p2 p3 hsplit w x y z hw hx hy hz2
    unfold StringToLocation
    rw [hsplit]
    simp [hw, hx, hy, hz2, ok_bind, pure, Except.pure]
  · intro s p0 p1 p2 hsplit x y z hx hy hz2
    unfold StringToLocation
    rw [hsplit]
    simp [hx, hy, hz2, ok_bind, pure, Except.pure, hz]
  · intro s p0 p1 hsplit x y hx hy
    unfold StringToLocation
    rw [hsplit]
    simp [hx, hy, ok_bind, pure, Except.pure, hz]
  · intro s p0 hsplit x hx
    unfold StringToLocation
    rw [hsplit]
    simp [hx, ok_bind, pure, Except.pure, hz]

/-- C5 (witness): the four-field mapping applied at `"9,8,7,6"`. -/
theorem c5_location_parse_witness :
    StringToLocation (chars "9,8,7,6") = .ok ⟨9, 8, 7, 6⟩ := by
  have h := c5_location_parse.1 (chars "9,8,7,6") (chars "9") (chars "8") (chars "7")
    (chars "6") (by decide) 9 8 7 6 (by decide) (by decide) (by decide) (by decide)
  exact h

/-- C6: the location codec round-trips every `Location` whose fields
fit in `int32` (all Go values do), and `LocationToString` emits the
three-field form exactly when `W = 0` and the four-field form
otherwise. -/
theorem c6_location_roundtrip (l : Location) (h : l.inRange = true) :
    StringToLocation (LocationToString l) = .ok l ∧
      (l.W = 0 → splitOn ',' (LocationToString l) = [itoa l.X, itoa l.Y, itoa l.Z]) ∧
      (l.W ≠ 0 →
        splitOn ',' (LocationToString l) = [itoa l.W, itoa l.X, itoa l.Y, itoa l.Z]) := by
  refine ⟨StringToLocation_LocationToString l h, ?_, ?_⟩
  · intro hw
    rw [splitOn_LocationToString, if_pos hw]
  · intro hw
    rw [splitOn_LocationToString, if_neg hw]

/-- C6 (witness): the round trip and the four-field form at the
location `(5, 1, 2, 3)`. -/
theorem c6_location_roundtrip_witness :
    StringToLocation (LocationToString ⟨5, 1, 2, 3⟩) = .ok ⟨5, 1, 2, 3⟩ ∧
      splitOn ',' (LocationToString ⟨5, 1, 2, 3⟩) =
        [itoa 5, itoa 1, itoa 2, itoa 3] :=
  ⟨(c6_location_roundtrip ⟨5, 1, 2, 3⟩ (by decide)).1,
   (c6_location_roundtrip ⟨5, 1, 2, 3⟩ (by decide)).2.2 (by decide)⟩

/-- C7: `WritePuzzle` emits the record lines in the fixed order —
target (always, even when zero), outline (only if present), all sky
records, description (only if non-empty), then all block, goal,
portal, sphere, scenery and dialog records — and within each entity
kind the records appear in the stored insertion order (`List.map` over
the stored sequence), with no sorting. -/
theorem c7_write_order (p : Puzzle) :
    WritePuzzle p = unlines ([targetLine p] ++ outlineLines p.Outline ++
      p.Sky.map skyLine ++ descLines p ++ p.Block.map blockLine ++
      p.Goal.map goalLine ++ p.Portal.map portalLine ++ p.Sphere.map sphereLine ++
      p.Scenery.map sceneryLine ++ p.Dialog.map dialogLine) :=
  WritePuzzle_eq_unlines p

/-- C8 (counterexample): a reader that delivers one target line and
then fails with an I/O error — `ReadPuzzle` returns the decoded puzzle
with a nil error; the reader's error is never reported, because
`scanner.Err()` is never consulted. -/
theorem c8_reader_counterexample :
    ReadPuzzleFromReader ⟨chars "target:7\n", some (chars "disk read failure")⟩ =
      .ok ⟨none, [], [], [], [], [], [], 7, [], []⟩ := by
  decide

/-- C8 (amended): the reader's recorded I/O error has no influence on
the result of `ReadPuzzle`, and `ReadPuzzle` never returns any error
value to the caller — its only abnormal outcomes are the `log.Fatal`
termination on malformed numeric fields and the index panic on short
recognized lines. -/
theorem c8_reader_errors (data : List Char) (e : Option (List Char)) :
    ReadPuzzleFromReader ⟨data, e⟩ = ReadPuzzleFromReader ⟨data, none⟩ ∧
      ∀ m, ReadPuzzleFromReader ⟨data, e⟩ ≠ .error (.returned m) :=
  ⟨rfl, fun m => ReadPuzzle_no_returned data m⟩

/-- C8 (witness): the amended statement applied at a concrete failing
reader. -/
theorem c8_reader_errors_witness :
    ReadPuzzleFromReader ⟨chars "sky:a:b:c:d:e:f\n", some (chars "broken pipe")⟩ =
      ReadPuzzleFromReader ⟨chars "sky:a:b:c:d:e:f\n", none⟩ :=
  (c8_reader_errors (chars "sky:a:b:c:d:e:f\n") (some (chars "broken pipe"))).1

/-- C9: a line whose first field is a recognized tag but which has
fewer colon-separated fields than the tag's arity drives `ReadPuzzle`
into an out-of-range slice index — in the total embedding, the panic
outcome, not a decode error. -/
theorem c9_short_line_panic :
    ReadPuzzle (chars "block:b1") = .error (.panic (chars "index out of range")) := by
  decide

theorem foldl_fail_out {α : Type} (f : α → List Char) (l : List α) :
    ∀ r : WriteRun,
      (l.foldl (fun r x => (fprintlnTo (fun _ => true) r (f x)).1) r).out = r.out := by
  induction l with
  | nil =>
    intro r
    rfl
  | cons x t ih =>
    intro r
    rw [List.foldl_cons, ih]
    rfl

theorem fprintlnTo_fail_out (r : WriteRun) (s : List Char) :
    ((fprintlnTo (fun _ => true) r s).1).out = r.out := rfl

theorem WritePuzzleTo_fail_out (p : Puzzle) :
    ((WritePuzzleTo (fun _ => true) p).1).out = [] := by
  unfold WritePuzzleTo
  cases p.Outline <;> by_cases hd : p.Description = [] <;>
    simp [foldl_fail_out, fprintlnTo_fail_out, hd]

/-- C10: `WritePuzzle` returns a nil error for every puzzle and every
writer, even one on which every single write fails (in which case
nothing at all is written, yet the result is still `ok`); after a
successful open, `WritePuzzleFile` does the same. -/
theorem c10_write_errors_discarded (p : Puzzle) (w : WriterFail) :
    (WritePuzzleTo w p).2 = .ok () ∧ WritePuzzleFile (.ok ()) w p = .ok () ∧
      ((WritePuzzleTo (fun _ => true) p).1).out = [] :=
  ⟨rfl, rfl, WritePuzzleTo_fail_out p⟩

end Perspective
